import Mathlib

/-!
Verification of the clinical-laboratory queueing simulation (src/app.py).

The simulation core is embedded shallowly:
* logical time and all durations are rationals (the Python code uses floats;
  none of the properties proved here depend on rounding),
* the global `random` module is a deterministic stream of raw draws fixed by
  the seed; the Mersenne Twister itself and the transcendental float maps
  (log in expovariate, sqrt in triangular) are library code and are replaced
  by rational surrogates with the same argument flow and draw consumption;
  no theorem below depends on the numeric law of a draw,
* the SimPy scheduler is an explicit event queue ordered by (time, insertion
  id); each generator suspension point of app.py (resource request, service
  timeout, inter-arrival timeout) is an explicit state transition, as in the
  design notes of the specification,
* Python runtime errors that the code can hit (ZeroDivisionError on a zero
  mean inter-arrival, ValueError on a negative timeout delay or a
  non-positive resource capacity) are `Except` errors,
* `env.run(until)` is a fuel-driven loop; the fuel is an artifact of
  totality and all theorems are quantified over it.
-/

namespace LabSim

/-- Python runtime errors the simulation core can raise. -/
inductive Err
  | zeroDivision
  | negativeDelay
  | valueError
deriving DecidableEq, Repr

/-- The test-type categorical value ("fast" / "slow" in app.py). -/
inductive TestType
  | fast
  | slow
deriving DecidableEq, Repr

/-- Keys of the service-time dict of app.py. -/
inductive SKey
  | registration
  | sampling
  | test_fast
  | test_slow
  | verification
deriving DecidableEq, Repr

/-- One (min, mode, max) triple of the service_time dict. -/
structure ServiceTriple where
  lo : ℚ
  mode : ℚ
  hi : ℚ
deriving DecidableEq, Repr

/-- The service_time dict of app.py: five triangular triples. -/
structure ServiceTimes where
  registration : ServiceTriple
  sampling : ServiceTriple
  test_fast : ServiceTriple
  test_slow : ServiceTriple
  verification : ServiceTriple
deriving DecidableEq, Repr

def ServiceTimes.get (stv : ServiceTimes) : SKey → ServiceTriple
  | SKey.registration => stv.registration
  | SKey.sampling => stv.sampling
  | SKey.test_fast => stv.test_fast
  | SKey.test_slow => stv.test_slow
  | SKey.verification => stv.verification

/-- The params dict passed to run_simulation.  `verbose` and
`max_debug_patients` only gate terminal printing in app.py and are carried
for completeness but never read by the embedding. -/
structure Params where
  mean_interarrival : ℚ
  p_priority : ℚ
  p_fast : ℚ
  c_reg : ℤ
  c_phleb : ℤ
  c_fast : ℤ
  c_slow : ℤ
  use_verify : Bool
  c_verify : ℤ
  sim_time : ℚ
  warm_up : ℚ
  verbose : Bool
  max_debug_patients : ℕ
  service_time : ServiceTimes

/-- The global pseudo-random state: an infinite stream of raw draws (the
successive outputs of random.random(), each in [0,1)) and a position. -/
structure RNG where
  stream : ℕ → ℚ
  pos : ℕ

/-- random.seed(seed): the previous global state is discarded and the stream
is a fixed deterministic function of the seed.  The Mersenne Twister is
library code; it is abstracted as a concrete deterministic stream with
values in [0,1).  No theorem depends on its law. -/
def mtStream (seed : ℕ) : ℕ → ℚ :=
  fun i => (((seed + 1) * 97 + i * 389) % 64 : ℕ) / 64

def randomSeed (seed : ℕ) : RNG := { stream := mtStream seed, pos := 0 }

/-- random.random(): one raw draw from the shared stream. -/
def random_random (g : RNG) : ℚ × RNG :=
  (g.stream g.pos, { stream := g.stream, pos := g.pos + 1 })

/-- random.expovariate(lambd) = -log(1-u)/lambd for one uniform draw u.
The transcendental -log(1-u) is replaced by the rational surrogate
u/(1-u), which is likewise 0 at u = 0, nonnegative and increasing on
[0,1); the sign behavior in lambd is identical. -/
def expovariate (lambd : ℚ) (g : RNG) : ℚ × RNG :=
  let u := random_random g
  ((u.1 / (1 - u.1)) / lambd, u.2)

/-- sample_interarrival(mean) = random.expovariate(1.0/mean); a zero mean
raises ZeroDivisionError when 1.0/mean is computed. -/
def sample_interarrival (mean : ℚ) (g : RNG) : Except Err (ℚ × RNG) :=
  if mean = 0 then Except.error Err.zeroDivision
  else Except.ok (expovariate (1 / mean) g)

/-- random.triangular(low, high, mode): one uniform draw u; the float sqrt
in the CPython source is replaced by the identity surrogate, keeping the
branch structure (including the caught ZeroDivisionError branch for
low = high, which returns low). -/
def triangular (low high mode : ℚ) (g : RNG) : ℚ × RNG :=
  let u := random_random g
  if low = high then (low, u.2)
  else
    let c := (mode - low) / (high - low)
    if u.1 > c then (high + (low - high) * ((1 - u.1) * (1 - c)), u.2)
    else (low + (high - low) * (u.1 * c), u.2)

/-- sample_triangular(min_val, mode_val, max_val) =
random.triangular(min_val, max_val, mode_val). -/
def sample_triangular (min_val mode_val max_val : ℚ) (g : RNG) : ℚ × RNG :=
  triangular min_val max_val mode_val g

/-- get_service_time(service_time_dict, name): unpack the triple and draw. -/
def get_service_time (stv : ServiceTimes) (k : SKey) (g : RNG) : ℚ × RNG :=
  sample_triangular (stv.get k).lo (stv.get k).mode (stv.get k).hi g

/-- sample_priority(p): 0 (prioritas) if random() < p else 1 (normal). -/
def sample_priority (p_priority : ℚ) (g : RNG) : ℤ × RNG :=
  let u := random_random g
  (if u.1 < p_priority then 0 else 1, u.2)

/-- sample_test_type(p_fast): fast if random() < p_fast else slow. -/
def sample_test_type (p_fast : ℚ) (g : RNG) : TestType × RNG :=
  let u := random_random g
  (if u.1 < p_fast then TestType.fast else TestType.slow, u.2)

/-- One completed-patient record, with the fields of the dict built at the
end of the patient process in app.py. -/
structure Record where
  pid : ℕ
  arrival : ℚ
  finish : ℚ
  priority : ℤ
  test_type : TestType
  wait_reg : ℚ
  wait_sample : ℚ
  wait_machine : ℚ
  wait_verify : ℚ
  system_time : ℚ
deriving DecidableEq, Repr

/-- The counts sub-dict of the log. -/
structure Counts where
  priority : ℕ
  normal : ℕ
  fast : ℕ
  slow : ℕ
deriving DecidableEq, Repr

/-- The accumulated log: full patient records, the counted-metric lists
(post warm-up) and the composition counters. -/
structure Log where
  patients : List Record
  wait_reg : List ℚ
  wait_sample : List ℚ
  wait_machine : List ℚ
  wait_verify : List ℚ
  system_time : List ℚ
  counts : Counts
deriving DecidableEq, Repr

def make_log : Log :=
  { patients := [], wait_reg := [], wait_sample := [], wait_machine := [],
    wait_verify := [], system_time := [],
    counts := { priority := 0, normal := 0, fast := 0, slow := 0 } }

/-- The four sequential service stages of the patient process. -/
inductive Stage
  | reg
  | phleb
  | machine
  | verify
deriving DecidableEq, Repr

/-- The local state of one patient process (the local variables of the
patient generator in app.py).  `pendingService` holds service_test, which
app.py samples when the test queue is entered, before the machine request;
`servicesSum` accumulates the sampled service durations consumed so far. -/
structure PatientState where
  pid : ℕ
  priority : ℤ
  test_type : TestType
  arrival : ℚ
  wait_reg : ℚ
  wait_sample : ℚ
  wait_machine : ℚ
  wait_verify : ℚ
  stage : Stage
  qstart : ℚ
  pendingService : ℚ
  servicesSum : ℚ
deriving DecidableEq, Repr

def waitsSum (p : PatientState) : ℚ :=
  p.wait_reg + p.wait_sample + p.wait_machine + p.wait_verify

def recWaits (r : Record) : ℚ :=
  r.wait_reg + r.wait_sample + r.wait_machine + r.wait_verify

/-- Record the wait of the current stage (env.now - q_start in app.py). -/
def setWait (p : PatientState) (w : ℚ) : PatientState :=
  match p.stage with
  | Stage.reg => { p with wait_reg := w }
  | Stage.phleb => { p with wait_sample := w }
  | Stage.machine => { p with wait_machine := w }
  | Stage.verify => { p with wait_verify := w }

/-- A pending request in a PriorityResource queue: the requesting priority,
a strictly increasing per-resource sequence number (SimPy sorts its queue
by (priority, time, ...) with a stable sort, which for a nondecreasing
clock is exactly (priority, submission order)), and the suspended patient
process. -/
structure Request where
  priority : ℤ
  seq : ℕ
  pat : PatientState
deriving DecidableEq, Repr

/-- Strict (priority, seq) lexicographic order on requests. -/
def keyLtB (a b : Request) : Bool :=
  a.priority < b.priority || (a.priority = b.priority && a.seq < b.seq)

/-- Insert into the sorted waiting queue (stable: a fresh request goes
after every request that does not strictly follow it). -/
def insertReq (r : Request) : List Request → List Request
  | [] => [r]
  | a :: t => if keyLtB r a then r :: a :: t else a :: insertReq r t

/-- A SimPy PriorityResource: static capacity, pids currently holding a
slot, the sorted waiting queue, and the next sequence number. -/
structure Resource where
  capacity : ℤ
  users : List ℕ
  nextSeq : ℕ
  queue : List Request
deriving DecidableEq, Repr

/-- SimPy's _trigger_put loop: grant the head of the sorted queue while a
slot is free.  Returns (users, remaining queue, granted requests). -/
def grantLoop (cap : ℤ) (users : List ℕ) : List Request → List ℕ × List Request × List Request
  | [] => (users, [], [])
  | r :: t =>
    if (users.length : ℤ) < cap then
      let rest := grantLoop cap (users ++ [r.pat.pid]) t
      (rest.1, rest.2.1, r :: rest.2.2)
    else (users, r :: t, [])

def triggerPut (res : Resource) : Resource × List Request :=
  let g := grantLoop res.capacity res.users res.queue
  ({ res with users := g.1, queue := g.2.1 }, g.2.2)

/-- resource.request(priority=priority): enqueue a tagged request and run
the put trigger; the granted requests (possibly including this one) resume
in the same time instant. -/
def Resource.request (res : Resource) (prio : ℤ) (pat : PatientState) : Resource × List Request :=
  triggerPut { res with
    queue := insertReq { priority := prio, seq := res.nextSeq, pat := pat } res.queue,
    nextSeq := res.nextSeq + 1 }

/-- resource.release(): free the slot and immediately re-grant in the same
time instant. -/
def Resource.release (res : Resource) (pid : ℕ) : Resource × List Request :=
  triggerPut { res with users := res.users.erase pid }

/-- The kinds of scheduled events: the arrivals generator wake-up, and the
end of a service timeout of one patient process. -/
inductive EvKind
  | arrival
  | endService (p : PatientState)
deriving DecidableEq, Repr

structure Ev where
  time : ℚ
  eid : ℕ
  kind : EvKind
deriving DecidableEq, Repr

/-- Strict (time, insertion id) order of the SimPy event heap. -/
def evLtB (a b : Ev) : Bool :=
  a.time < b.time || (a.time = b.time && a.eid < b.eid)

def insertEv (e : Ev) : List Ev → List Ev
  | [] => [e]
  | a :: t => if evLtB e a then e :: a :: t else a :: insertEv e t

/-- The whole simulation state owned by the run controller. -/
structure SimState where
  now : ℚ
  nextEid : ℕ
  events : List Ev
  reg : Resource
  phleb : Resource
  machine_fast : Resource
  machine_slow : Resource
  verify : Option Resource
  nextPid : ℕ
  log : Log
  archive : List (Record × ℚ)
  rng : RNG

def schedule (st : SimState) (t : ℚ) (k : EvKind) : SimState :=
  { st with events := insertEv { time := t, eid := st.nextEid, kind := k } st.events,
            nextEid := st.nextEid + 1 }

/-- The service duration consumed when the patient is granted its current
stage: registration / sampling / verification sample at grant time; the
test stage uses the duration sampled when its queue was entered. -/
def stageService (params : Params) (p : PatientState) (g : RNG) : ℚ × RNG :=
  match p.stage with
  | Stage.reg => get_service_time params.service_time SKey.registration g
  | Stage.phleb => get_service_time params.service_time SKey.sampling g
  | Stage.machine => (p.pendingService, g)
  | Stage.verify => get_service_time params.service_time SKey.verification g

/-- A granted request resumes its patient: record the stage wait
(env.now - q_start), draw the service duration and suspend on
env.timeout(service); SimPy raises ValueError on a negative delay. -/
def handleGrant (params : Params) (st : SimState) (req : Request) : Except Err SimState :=
  let w := st.now - req.pat.qstart
  let p := setWait req.pat w
  let sg := stageService params p st.rng
  if sg.1 < 0 then Except.error Err.negativeDelay
  else
    Except.ok (schedule { st with rng := sg.2 } (st.now + sg.1)
      (EvKind.endService { p with servicesSum := p.servicesSum + sg.1 }))

def handleGrants (params : Params) : SimState → List Request → Except Err SimState
  | st, [] => Except.ok st
  | st, r :: t =>
    match handleGrant params st r with
    | Except.error e => Except.error e
    | Except.ok st1 => handleGrants params st1 t

/-- The completion side effect of the patient process: append the record to
the full log; if arrival_time >= warm_up also append the wait/system-time
figures to the counted-metric lists (wait_verify only when the verification
pool exists).  The archive pairs the record with the patient's accumulated
service durations (a proof-side observer; app.py keeps these values only in
the generator's local variables). -/
def finishPatient (params : Params) (st : SimState) (p : PatientState) : SimState :=
  let finish_time := st.now
  let system_time := finish_time - p.arrival
  let record : Record :=
    { pid := p.pid, arrival := p.arrival, finish := finish_time,
      priority := p.priority, test_type := p.test_type,
      wait_reg := p.wait_reg, wait_sample := p.wait_sample,
      wait_machine := p.wait_machine, wait_verify := p.wait_verify,
      system_time := system_time }
  let lg := st.log
  let lg1 := { lg with patients := lg.patients ++ [record] }
  let lg2 :=
    if params.warm_up ≤ p.arrival then
      { lg1 with
        wait_reg := lg1.wait_reg ++ [p.wait_reg],
        wait_sample := lg1.wait_sample ++ [p.wait_sample],
        wait_machine := lg1.wait_machine ++ [p.wait_machine],
        wait_verify := if st.verify.isSome then lg1.wait_verify ++ [p.wait_verify] else lg1.wait_verify,
        system_time := lg1.system_time ++ [system_time] }
    else lg1
  { st with log := lg2, archive := st.archive ++ [(record, p.servicesSum)] }

/-- Enter the given stage: set q_start := env.now, pick the stage's pool
(the test stage first samples service_test and selects the fast or slow
machine pool) and request it.  Entering verification with no verification
pool completes the patient (app.py only reaches verification when the pool
exists). -/
def startStage (params : Params) (st : SimState) (p0 : PatientState) (s : Stage) : Except Err SimState :=
  match s with
  | Stage.reg =>
    let p := { p0 with stage := Stage.reg, qstart := st.now }
    let rg := Resource.request st.reg p.priority p
    handleGrants params { st with reg := rg.1 } rg.2
  | Stage.phleb =>
    let p := { p0 with stage := Stage.phleb, qstart := st.now }
    let rg := Resource.request st.phleb p.priority p
    handleGrants params { st with phleb := rg.1 } rg.2
  | Stage.machine =>
    let sv := get_service_time params.service_time
      (if p0.test_type = TestType.fast then SKey.test_fast else SKey.test_slow) st.rng
    let p := { p0 with stage := Stage.machine, qstart := st.now, pendingService := sv.1 }
    let st1 := { st with rng := sv.2 }
    if p0.test_type = TestType.fast then
      let rg := Resource.request st1.machine_fast p.priority p
      handleGrants params { st1 with machine_fast := rg.1 } rg.2
    else
      let rg := Resource.request st1.machine_slow p.priority p
      handleGrants params { st1 with machine_slow := rg.1 } rg.2
  | Stage.verify =>
    match st.verify with
    | some res =>
      let p := { p0 with stage := Stage.verify, qstart := st.now }
      let rg := Resource.request res p.priority p
      handleGrants params { st with verify := some rg.1 } rg.2
    | none => Except.ok (finishPatient params st p0)

/-- Release the pool of the stage whose service just ended, re-granting in
the same instant. -/
def releaseStage (params : Params) (st : SimState) (p : PatientState) : Except Err SimState :=
  match p.stage with
  | Stage.reg =>
    let rg := Resource.release st.reg p.pid
    handleGrants params { st with reg := rg.1 } rg.2
  | Stage.phleb =>
    let rg := Resource.release st.phleb p.pid
    handleGrants params { st with phleb := rg.1 } rg.2
  | Stage.machine =>
    if p.test_type = TestType.fast then
      let rg := Resource.release st.machine_fast p.pid
      handleGrants params { st with machine_fast := rg.1 } rg.2
    else
      let rg := Resource.release st.machine_slow p.pid
      handleGrants params { st with machine_slow := rg.1 } rg.2
  | Stage.verify =>
    match st.verify with
    | some res =>
      let rg := Resource.release res p.pid
      handleGrants params { st with verify := some rg.1 } rg.2
    | none => Except.ok st

/-- A service timeout fired: leave the with-block (release), then proceed
to the next stage in the fixed REG -> SAMPLING -> TEST -> [VERIFY] -> DONE
sequence. -/
def handleEndService (params : Params) (st : SimState) (p : PatientState) : Except Err SimState :=
  match releaseStage params st p with
  | Except.error e => Except.error e
  | Except.ok st1 =>
    match p.stage with
    | Stage.reg => startStage params st1 p Stage.phleb
    | Stage.phleb => startStage params st1 p Stage.machine
    | Stage.machine =>
      match st1.verify with
      | some _ => startStage params st1 p Stage.verify
      | none => Except.ok (finishPatient params st1 p)
    | Stage.verify => Except.ok (finishPatient params st1 p)

/-- The composition-counter updates of one arrivals iteration: one of
priority/normal and one of fast/slow is incremented at spawn time. -/
def bumpCounts (c0 : Counts) (prio : ℤ) (tt : TestType) : Counts :=
  let c1 := if prio = 0 then { c0 with priority := c0.priority + 1 }
            else { c0 with normal := c0.normal + 1 }
  if tt = TestType.fast then { c1 with fast := c1.fast + 1 }
  else { c1 with slow := c1.slow + 1 }

/-- A freshly spawned patient process at its creation instant t. -/
def newPatient (pid : ℕ) (prio : ℤ) (tt : TestType) (t : ℚ) : PatientState :=
  { pid := pid, priority := prio, test_type := tt, arrival := t,
    wait_reg := 0, wait_sample := 0, wait_machine := 0, wait_verify := 0,
    stage := Stage.reg, qstart := t, pendingService := 0, servicesSum := 0 }

/-- One pass of the arrivals generator loop: draw the priority class and
test type, bump the composition counters, schedule the next arrival after
a sampled gap (SimPy raises on a negative delay), then run the new patient
process from its first suspension (pid assignment and counter updates
happen at spawn, whether or not the patient ever completes). -/
def handleArrival (params : Params) (st : SimState) : Except Err SimState :=
  let pr := sample_priority params.p_priority st.rng
  let tt := sample_test_type params.p_fast pr.2
  match sample_interarrival params.mean_interarrival tt.2 with
  | Except.error e => Except.error e
  | Except.ok ia =>
    if ia.1 < 0 then Except.error Err.negativeDelay
    else
      let st2 := schedule
        { st with
            rng := ia.2,
            nextPid := st.nextPid + 1,
            log := { st.log with counts := bumpCounts st.log.counts pr.1 tt.1 } }
        (st.now + ia.1) EvKind.arrival
      startStage params st2 (newPatient st.nextPid pr.1 tt.1 st.now) Stage.reg

/-- One step of env.run(until=sim_time): fire the earliest pending event if
it is strictly before the horizon; otherwise stop. -/
def stepSim (params : Params) (st : SimState) : Except Err (Option SimState) :=
  match st.events with
  | [] => Except.ok none
  | e :: rest =>
    if e.time < params.sim_time then
      let st1 := { st with now := e.time, events := rest }
      match e.kind with
      | EvKind.arrival => Except.map some (handleArrival params st1)
      | EvKind.endService p => Except.map some (handleEndService params st1 p)
    else Except.ok none

def simLoop (params : Params) : ℕ → SimState → Except Err SimState
  | 0, st => Except.ok st
  | n + 1, st =>
    match stepSim params st with
    | Except.error e => Except.error e
    | Except.ok none => Except.ok st
    | Except.ok (some st1) => simLoop params n st1

def emptyResource (c : ℤ) : Resource :=
  { capacity := c, users := [], nextSeq := 0, queue := [] }

/-- The state after run_simulation's setup: fresh environment, the four
(plus optional verification) pools, an empty log, and the arrivals process
initialized at time 0. -/
def initState (params : Params) (g : RNG) : SimState :=
  { now := 0, nextEid := 1,
    events := [{ time := 0, eid := 0, kind := EvKind.arrival }],
    reg := emptyResource params.c_reg,
    phleb := emptyResource params.c_phleb,
    machine_fast := emptyResource params.c_fast,
    machine_slow := emptyResource params.c_slow,
    verify := if params.use_verify ∧ 0 < params.c_verify
              then some (emptyResource params.c_verify) else none,
    nextPid := 0, log := make_log, archive := [], rng := g }

/-- run_simulation(params, seed), returning the whole final state.  The
incoming global RNG state g0 is discarded by random.seed(seed).  SimPy's
Resource constructor raises ValueError for a non-positive capacity (the
four unconditional pools are built before env.run; the verification pool
is only built when use_verify and c_verify > 0), and env.run raises
ValueError when the horizon is not ahead of the clock.  `fuel` bounds the
number of processed events. -/
def runFull (params : Params) (seed : ℕ) (fuel : ℕ) (g0 : RNG) : Except Err SimState :=
  let g := randomSeed seed
  if params.c_reg ≤ 0 ∨ params.c_phleb ≤ 0 ∨ params.c_fast ≤ 0 ∨ params.c_slow ≤ 0 then
    Except.error Err.valueError
  else if params.sim_time ≤ 0 then Except.error Err.valueError
  else simLoop params fuel (initState params g)

/-- run_simulation(params, seed): the accumulated log. -/
def run_simulation (params : Params) (seed : ℕ) (fuel : ℕ) (g0 : RNG) : Except Err Log :=
  Except.map SimState.log (runFull params seed fuel g0)

/-- statistics.mean for a nonempty list, float NaN (modeled as none) for an
empty one. -/
def safe_mean (xs : List ℚ) : Option ℚ :=
  if xs = [] then none else some (xs.sum / (xs.length : ℚ))

/-- Python int() on a float: truncation toward zero. -/
def pyInt (q : ℚ) : ℤ := if 0 ≤ q then Int.floor q else Int.ceil q

/-- The nonempty-list branch of percentile(xs, p) of app.py: sort
ascending, k = (n-1)*(p/100), f = int(k), c = min(f+1, n-1), and linearly
interpolate between positions f and c.  List indexing is total via getD;
for the in-range indices produced by 0 <= p <= 100 this agrees with Python
indexing. -/
def percentileVal (xs : List ℚ) (p : ℚ) : ℚ :=
  let s := xs.mergeSort (fun a b => decide (a ≤ b))
  let k : ℚ := ((s.length - 1 : ℕ) : ℚ) * (p / 100)
  let f : ℤ := pyInt k
  let c : ℤ := min (f + 1) ((s.length : ℤ) - 1)
  if f = c then s.getD f.toNat 0
  else s.getD f.toNat 0 + (k - (f : ℚ)) * (s.getD c.toNat 0 - s.getD f.toNat 0)

/-- percentile(xs, p) of app.py: NaN (none) on the empty list, otherwise
the order-statistic interpolation. -/
def percentile (xs : List ℚ) (p : ℚ) : Option ℚ :=
  if xs = [] then none else some (percentileVal xs p)

/-- The summary dict of summarize(log). -/
structure Summary where
  total_patients : ℕ
  counted_patients : ℕ
  mean_wait_reg : Option ℚ
  mean_wait_sample : Option ℚ
  mean_wait_machine : Option ℚ
  mean_system_time : Option ℚ
  p95_system_time : Option ℚ
  counts : Counts
deriving DecidableEq, Repr

def summarize (lg : Log) : Summary :=
  { total_patients := lg.patients.length,
    counted_patients := lg.system_time.length,
    mean_wait_reg := safe_mean lg.wait_reg,
    mean_wait_sample := safe_mean lg.wait_sample,
    mean_wait_machine := safe_mean lg.wait_machine,
    mean_system_time := safe_mean lg.system_time,
    p95_system_time := percentile lg.system_time 95,
    counts := lg.counts }

/-- The four stage keys of the bottleneck dict, in Python dict insertion
order: Registrasi, Pengambilan Sampel, Mesin Tes, Verifikasi. -/
inductive BStage
  | registrasi
  | sampel
  | mesin
  | verifikasi
deriving DecidableEq, Repr

/-- Python float > with NaN (none) semantics: any comparison against NaN
is false. -/
def pyGt (a b : Option ℚ) : Bool :=
  match a, b with
  | some x, some y => decide (y < x)
  | _, _ => false

/-- Python float + with NaN propagation. -/
def pyAdd (a b : Option ℚ) : Option ℚ :=
  match a, b with
  | some x, some y => some (x + y)
  | _, _ => none

structure Bottleneck where
  bottleneck : BStage
  wait_time : Option ℚ
  severity : ℚ
  all_stages : BStage → Option ℚ

/-- analyze_bottleneck(summary, log): the stage values are the three
summary means plus the verification mean (0, not NaN, when the wait_verify
list is empty); the bottleneck is Python max by value (first key wins
ties, NaN comparisons are false); severity is the bottleneck's share of
the four-value sum when that sum is > 0, else 0. -/
def analyze_bottleneck (summary : Summary) (lg : Log) : Bottleneck :=
  let stages : BStage → Option ℚ := fun s =>
    match s with
    | BStage.registrasi => summary.mean_wait_reg
    | BStage.sampel => summary.mean_wait_sample
    | BStage.mesin => summary.mean_wait_machine
    | BStage.verifikasi => if lg.wait_verify = [] then some 0 else safe_mean lg.wait_verify
  let best := [BStage.sampel, BStage.mesin, BStage.verifikasi].foldl
    (fun acc s => if pyGt (stages s) (stages acc) then s else acc) BStage.registrasi
  let bt := stages best
  let total := pyAdd (pyAdd (pyAdd (stages BStage.registrasi) (stages BStage.sampel))
    (stages BStage.mesin)) (stages BStage.verifikasi)
  let severity : ℚ :=
    if pyGt total (some 0) then
      match bt, total with
      | some b, some t => b / t * 100
      | _, _ => 0
    else 0
  { bottleneck := best, wait_time := bt, severity := severity, all_stages := stages }

/-- The utilization dict of calculate_utilization. -/
structure Utilization where
  registrasi : ℚ
  sampel : ℚ
  mesin_fast : ℚ
  mesin_slow : ℚ
  verifikasi : ℚ
deriving DecidableEq, Repr

/-- calculate_utilization(log, params): the empty dict (none) when there
are no patient records; otherwise, per pool, (count x modal service time)
/ (capacity x horizon) x 100 capped at 100 with min, where registration /
sampling / verification use the number of completed records and the two
machine pools use the spawned fast / slow counters; the verification term
is the literal 0 when use_verify is off.  A zero denominator raises
ZeroDivisionError, in the evaluation order of the Python source. -/
def calculate_utilization (lg : Log) (params : Params) : Except Err (Option Utilization) :=
  if lg.patients = [] then Except.ok none
  else
    let sim_time := params.sim_time
    let stv := params.service_time
    let avg_reg := stv.registration.mode
    let avg_sample := stv.sampling.mode
    let avg_fast := stv.test_fast.mode
    let avg_slow := stv.test_slow.mode
    let avg_verify := if params.use_verify then stv.verification.mode else 0
    let total_patients : ℚ := (lg.patients.length : ℚ)
    let fast_patients : ℚ := (lg.counts.fast : ℚ)
    let slow_patients : ℚ := (lg.counts.slow : ℚ)
    if (params.c_reg : ℚ) * sim_time = 0 then Except.error Err.zeroDivision
    else if (params.c_phleb : ℚ) * sim_time = 0 then Except.error Err.zeroDivision
    else if (params.c_fast : ℚ) * sim_time = 0 then Except.error Err.zeroDivision
    else if (params.c_slow : ℚ) * sim_time = 0 then Except.error Err.zeroDivision
    else if params.use_verify ∧ (params.c_verify : ℚ) * sim_time = 0 then Except.error Err.zeroDivision
    else
      let util_reg := total_patients * avg_reg / ((params.c_reg : ℚ) * sim_time) * 100
      let util_phleb := total_patients * avg_sample / ((params.c_phleb : ℚ) * sim_time) * 100
      let util_fast := fast_patients * avg_fast / ((params.c_fast : ℚ) * sim_time) * 100
      let util_slow := slow_patients * avg_slow / ((params.c_slow : ℚ) * sim_time) * 100
      let util_verify := if params.use_verify
        then total_patients * avg_verify / ((params.c_verify : ℚ) * sim_time) * 100 else 0
      Except.ok (some
        { registrasi := min util_reg 100, sampel := min util_phleb 100,
          mesin_fast := min util_fast 100, mesin_slow := min util_slow 100,
          verifikasi := min util_verify 100 })

/-! ### Order and queue lemmas for the priority resource -/

lemma keyLtB_iff {a b : Request} :
    keyLtB a b = true ↔ a.priority < b.priority ∨ (a.priority = b.priority ∧ a.seq < b.seq) := by
  simp [keyLtB]

lemma keyLtB_irrefl (a : Request) : keyLtB a a = false := by
  simp [keyLtB]

lemma keyLtB_asymm {a b : Request} (h : keyLtB a b = true) : keyLtB b a = false := by
  rw [keyLtB_iff] at h
  rw [Bool.eq_false_iff]
  intro hc
  rw [keyLtB_iff] at hc
  omega

lemma keyLtB_trans {a b c : Request} (h1 : keyLtB a b = true) (h2 : keyLtB b c = true) :
    keyLtB a c = true := by
  rw [keyLtB_iff] at h1 h2 ⊢
  omega

lemma keyLtB_total {a b : Request} (h : a.seq ≠ b.seq) :
    keyLtB a b = true ∨ keyLtB b a = true := by
  rw [keyLtB_iff, keyLtB_iff]
  omega

lemma insertReq_perm (r : Request) (l : List Request) : (insertReq r l).Perm (r :: l) := by
  induction l with
  | nil => simp [insertReq]
  | cons a t ih =>
    rw [insertReq]
    by_cases h : keyLtB r a
    · simp [h]
    · simp only [h, if_neg, Bool.false_eq_true, not_false_eq_true, if_false]
      exact (ih.cons a).trans (List.Perm.swap r a t)

lemma mem_insertReq {x r : Request} {l : List Request} :
    x ∈ insertReq r l ↔ x = r ∨ x ∈ l := by
  rw [(insertReq_perm r l).mem_iff, List.mem_cons]

lemma length_insertReq (r : Request) (l : List Request) :
    (insertReq r l).length = l.length + 1 := by
  rw [(insertReq_perm r l).length_eq, List.length_cons]

lemma insertReq_pairwise {r : Request} {l : List Request}
    (hl : l.Pairwise (fun a b => keyLtB a b = true))
    (htot : ∀ a ∈ l, keyLtB r a = true ∨ keyLtB a r = true) :
    (insertReq r l).Pairwise (fun a b => keyLtB a b = true) := by
  induction l with
  | nil => simp [insertReq]
  | cons a t ih =>
    rw [insertReq]
    rcases List.pairwise_cons.mp hl with ⟨ha, ht⟩
    by_cases h : keyLtB r a
    · simp only [h, if_true]
      refine List.pairwise_cons.mpr ⟨?_, hl⟩
      intro b hb
      rcases List.mem_cons.mp hb with rfl | hb
      · exact h
      · exact keyLtB_trans h (ha b hb)
    · simp only [h, Bool.false_eq_true, if_false]
      refine List.pairwise_cons.mpr ⟨?_, ih ht (fun b hb => htot b (List.mem_cons_of_mem a hb))⟩
      intro b hb
      rcases mem_insertReq.mp hb with rfl | hb
      · rcases htot a (List.mem_cons_self a t) with h1 | h1
        · exact absurd h1 (by simpa using h)
        · exact h1
      · exact ha b hb

/-- The put-trigger loop grants an initial segment of the sorted queue. -/
lemma grantLoop_spec (cap : ℤ) (users : List ℕ) (q : List Request) :
    ∃ k, (grantLoop cap users q).1 = users ++ (q.take k).map (fun r => r.pat.pid) ∧
      (grantLoop cap users q).2.1 = q.drop k ∧
      (grantLoop cap users q).2.2 = q.take k := by
  induction q generalizing users with
  | nil => exact ⟨0, by simp [grantLoop]⟩
  | cons r t ih =>
    rw [grantLoop]
    by_cases h : (users.length : ℤ) < cap
    · simp only [h, if_true]
      rcases ih (users ++ [r.pat.pid]) with ⟨k, h1, h2, h3⟩
      exact ⟨k + 1, by simp [h1, h2, h3]⟩
    · exact ⟨0, by simp [h]⟩

lemma triggerPut_spec (res : Resource) :
    ∃ k,
      (triggerPut res).1.queue = res.queue.drop k ∧
      (triggerPut res).2 = res.queue.take k ∧
      (triggerPut res).1.capacity = res.capacity ∧
      (triggerPut res).1.nextSeq = res.nextSeq ∧
      (∃ l, (triggerPut res).1.users = res.users ++ l) := by
  rcases grantLoop_spec res.capacity res.users res.queue with ⟨k, h1, h2, h3⟩
  exact ⟨k, by simp [triggerPut, h1, h2, h3]⟩

lemma triggerPut_queue_mem {res : Resource} {x : Request}
    (h : x ∈ (triggerPut res).1.queue) : x ∈ res.queue := by
  rcases triggerPut_spec res with ⟨k, h1, -, -⟩
  rw [h1] at h
  exact List.drop_subset k res.queue h

lemma triggerPut_grants_mem {res : Resource} {x : Request}
    (h : x ∈ (triggerPut res).2) : x ∈ res.queue := by
  rcases triggerPut_spec res with ⟨k, -, h2, -⟩
  rw [h2] at h
  exact List.take_subset k res.queue h

lemma triggerPut_count (res : Resource) :
    (triggerPut res).1.queue.length + (triggerPut res).2.length = res.queue.length := by
  rcases triggerPut_spec res with ⟨k, h1, h2, -⟩
  rw [h1, h2, List.length_drop, List.length_take]
  omega

lemma request_queue_mem {res : Resource} {prio : ℤ} {pat : PatientState} {x : Request}
    (h : x ∈ (Resource.request res prio pat).1.queue) :
    x = { priority := prio, seq := res.nextSeq, pat := pat } ∨ x ∈ res.queue := by
  have := triggerPut_queue_mem h
  exact mem_insertReq.mp this

lemma request_grants_mem {res : Resource} {prio : ℤ} {pat : PatientState} {x : Request}
    (h : x ∈ (Resource.request res prio pat).2) :
    x = { priority := prio, seq := res.nextSeq, pat := pat } ∨ x ∈ res.queue := by
  have := triggerPut_grants_mem h
  exact mem_insertReq.mp this

lemma request_count (res : Resource) (prio : ℤ) (pat : PatientState) :
    (Resource.request res prio pat).1.queue.length + (Resource.request res prio pat).2.length
      = res.queue.length + 1 := by
  have h := triggerPut_count { res with
    queue := insertReq { priority := prio, seq := res.nextSeq, pat := pat } res.queue,
    nextSeq := res.nextSeq + 1 }
  simpa [Resource.request, length_insertReq] using h

lemma release_queue_mem {res : Resource} {pid : ℕ} {x : Request}
    (h : x ∈ (Resource.release res pid).1.queue) : x ∈ res.queue := by
  have h2 : x ∈ (triggerPut { res with users := res.users.erase pid }).1.queue := h
  simpa using triggerPut_queue_mem h2

lemma release_grants_mem {res : Resource} {pid : ℕ} {x : Request}
    (h : x ∈ (Resource.release res pid).2) : x ∈ res.queue := by
  have h2 : x ∈ (triggerPut { res with users := res.users.erase pid }).2 := h
  simpa using triggerPut_grants_mem h2

lemma release_count (res : Resource) (pid : ℕ) :
    (Resource.release res pid).1.queue.length + (Resource.release res pid).2.length
      = res.queue.length := by
  have h := triggerPut_count { res with users := res.users.erase pid }
  simpa [Resource.release] using h

/-! ### Event queue lemmas -/

lemma insertEv_perm (e : Ev) (l : List Ev) : (insertEv e l).Perm (e :: l) := by
  induction l with
  | nil => simp [insertEv]
  | cons a t ih =>
    rw [insertEv]
    by_cases h : evLtB e a
    · simp [h]
    · simp only [h, Bool.false_eq_true, if_false]
      exact (ih.cons a).trans (List.Perm.swap e a t)

lemma mem_insertEv {x e : Ev} {l : List Ev} :
    x ∈ insertEv e l ↔ x = e ∨ x ∈ l := by
  rw [(insertEv_perm e l).mem_iff, List.mem_cons]

def isEnd (e : Ev) : Bool :=
  match e.kind with
  | EvKind.endService _ => true
  | _ => false

def activeEvents (evs : List Ev) : ℕ := evs.countP isEnd

lemma activeEvents_insertEv (e : Ev) (l : List Ev) :
    activeEvents (insertEv e l) = activeEvents l + (if isEnd e then 1 else 0) := by
  unfold activeEvents
  rw [(insertEv_perm e l).countP_eq, List.countP_cons]

/-! ### Patient timing and logging invariants -/

/-- The wait fields of the given stage and of all later stages still hold
their 0 initial value (a patient sets each stage's wait exactly once, when
that stage's resource is granted). -/
def zeroFrom : Stage → PatientState → Prop
  | Stage.reg, p => p.wait_reg = 0 ∧ p.wait_sample = 0 ∧ p.wait_machine = 0 ∧ p.wait_verify = 0
  | Stage.phleb, p => p.wait_sample = 0 ∧ p.wait_machine = 0 ∧ p.wait_verify = 0
  | Stage.machine, p => p.wait_machine = 0 ∧ p.wait_verify = 0
  | Stage.verify, p => p.wait_verify = 0

/-- The wait fields of all stages after the given one are still 0. -/
def zeroAfter : Stage → PatientState → Prop
  | Stage.reg, p => p.wait_sample = 0 ∧ p.wait_machine = 0 ∧ p.wait_verify = 0
  | Stage.phleb, p => p.wait_machine = 0 ∧ p.wait_verify = 0
  | Stage.machine, p => p.wait_verify = 0
  | Stage.verify, _ => True

/-- Invariant of a patient suspended in a resource queue: the queue-entry
time is the arrival time plus all waits and services consumed so far. -/
def PQ (p : PatientState) : Prop :=
  p.qstart = p.arrival + waitsSum p + p.servicesSum ∧ 0 ≤ p.servicesSum ∧ zeroFrom p.stage p

/-- Invariant of a patient suspended on a service timeout scheduled for
time t: t is the arrival time plus all waits and services consumed,
including the service in progress. -/
def PE (t : ℚ) (p : PatientState) : Prop :=
  t = p.arrival + waitsSum p + p.servicesSum ∧ 0 ≤ p.servicesSum ∧ zeroAfter p.stage p

/-- A patient about to enter stage s at the current instant. -/
def Ready (now : ℚ) (s : Stage) (p : PatientState) : Prop :=
  p.arrival + waitsSum p + p.servicesSum = now ∧ 0 ≤ p.servicesSum ∧ zeroFrom s p

def RInv (res : Resource) : Prop := ∀ q ∈ res.queue, PQ q.pat

def EInv (evs : List Ev) : Prop :=
  ∀ e ∈ evs, ∀ p, e.kind = EvKind.endService p → PE e.time p

/-- A completed record paired with its accumulated service durations. -/
def ArchRec (pr : Record × ℚ) : Prop :=
  pr.1.system_time = pr.1.finish - pr.1.arrival ∧
  pr.1.system_time = recWaits pr.1 + pr.2 ∧ 0 ≤ pr.2

/-- The post-warm-up projection of a record list. -/
def counted (w : ℚ) (f : Record → ℚ) (l : List Record) : List ℚ :=
  (l.filter (fun r => decide (w ≤ r.arrival))).map f

/-- The counted-metric lists are exactly the post-warm-up projections of
the full patient list (wait_verify only while the verification pool
exists). -/
def LInv (w : ℚ) (lg : Log) (von : Bool) : Prop :=
  lg.wait_reg = counted w Record.wait_reg lg.patients ∧
  lg.wait_sample = counted w Record.wait_sample lg.patients ∧
  lg.wait_machine = counted w Record.wait_machine lg.patients ∧
  lg.system_time = counted w Record.system_time lg.patients ∧
  lg.wait_verify = (if von then counted w Record.wait_verify lg.patients else [])

def queuedCount (st : SimState) : ℕ :=
  st.reg.queue.length + st.phleb.queue.length + st.machine_fast.queue.length +
    st.machine_slow.queue.length +
    (match st.verify with
     | some r => r.queue.length
     | none => 0)

/-- Number of live patient processes plus completed records. -/
def sysCount (st : SimState) : ℕ :=
  st.log.patients.length + queuedCount st + activeEvents st.events

/-- The global simulation invariant (w is the warm-up threshold). -/
structure Inv (w : ℚ) (st : SimState) : Prop where
  hreg : RInv st.reg
  hphleb : RInv st.phleb
  hfast : RInv st.machine_fast
  hslow : RInv st.machine_slow
  hverify : ∀ r, st.verify = some r → RInv r
  hev : EInv st.events
  harchmap : st.log.patients = st.archive.map Prod.fst
  harch : ∀ pr ∈ st.archive, ArchRec pr
  hlog : LInv w st.log st.verify.isSome

lemma setWait_PE {now s : ℚ} {q : PatientState} (hq : PQ q) (hs : 0 ≤ s) :
    PE (now + s)
      { setWait q (now - q.qstart) with
        servicesSum := (setWait q (now - q.qstart)).servicesSum + s } := by
  obtain ⟨h1, h2, h3⟩ := hq
  simp only [waitsSum] at h1
  cases hst : q.stage
  all_goals
    rw [hst] at h3
    simp only [setWait, hst, PE, waitsSum, zeroAfter, zeroFrom] at h3 ⊢
  · obtain ⟨a, b, c, d⟩ := h3
    exact ⟨by linarith, by linarith, b, c, d⟩
  · obtain ⟨b, c, d⟩ := h3
    exact ⟨by linarith, by linarith, c, d⟩
  · obtain ⟨c, d⟩ := h3
    exact ⟨by linarith, by linarith, d⟩
  · exact ⟨by linarith, by linarith, trivial⟩

lemma handleGrant_spec {params : Params} {st : SimState} {req : Request} {st1 : SimState}
    (h : handleGrant params st req = Except.ok st1) :
    ∃ t pnew g2, st1 = schedule { st with rng := g2 } t (EvKind.endService pnew) ∧
      (PQ req.pat → PE t pnew) := by
  unfold handleGrant at h
  by_cases hneg :
      (stageService params (setWait req.pat (st.now - req.pat.qstart)) st.rng).1 < 0
  · simp only [hneg, if_true] at h
    cases h
  · simp only [hneg, if_false] at h
    refine ⟨st.now + (stageService params (setWait req.pat (st.now - req.pat.qstart)) st.rng).1,
      _, _, (Except.ok.inj h).symm, ?_⟩
    intro hq
    have hsw : setWait req.pat (st.now - req.pat.qstart) = setWait req.pat (st.now - req.pat.qstart) := rfl
    have hserv : (stageService params (setWait req.pat (st.now - req.pat.qstart)) st.rng).2 =
        (stageService params (setWait req.pat (st.now - req.pat.qstart)) st.rng).2 := rfl
    have hps : (setWait req.pat (st.now - req.pat.qstart)).servicesSum = req.pat.servicesSum := by
      cases hst : req.pat.stage <;> simp [setWait, hst]
    have := @setWait_PE st.now
      ((stageService params (setWait req.pat (st.now - req.pat.qstart)) st.rng).1)
      req.pat hq (le_of_not_lt hneg)
    exact this

lemma schedule_frame (st : SimState) (t : ℚ) (k : EvKind) :
    (schedule st t k).log = st.log ∧ (schedule st t k).verify = st.verify ∧
    (schedule st t k).nextPid = st.nextPid ∧ (schedule st t k).reg = st.reg ∧
    (schedule st t k).phleb = st.phleb ∧ (schedule st t k).machine_fast = st.machine_fast ∧
    (schedule st t k).machine_slow = st.machine_slow ∧
    (schedule st t k).archive = st.archive ∧ (schedule st t k).now = st.now := by
  simp [schedule]

lemma handleGrants_spec {params : Params} :
    ∀ (gs : List Request) (st st1 : SimState),
      handleGrants params st gs = Except.ok st1 →
      (∀ g ∈ gs, PQ g.pat) →
      EInv st.events →
      EInv st1.events ∧
      st1.log = st.log ∧ st1.verify = st.verify ∧ st1.nextPid = st.nextPid ∧
      st1.reg = st.reg ∧ st1.phleb = st.phleb ∧
      st1.machine_fast = st.machine_fast ∧ st1.machine_slow = st.machine_slow ∧
      st1.archive = st.archive ∧ st1.now = st.now ∧
      activeEvents st1.events = activeEvents st.events + gs.length := by
  intro gs
  induction gs with
  | nil =>
    intro st st1 h _ hev
    simp only [handleGrants] at h
    cases h
    exact ⟨hev, rfl, rfl, rfl, rfl, rfl, rfl, rfl, rfl, rfl, by simp⟩
  | cons r t ih =>
    intro st st1 h hpq hev
    simp only [handleGrants] at h
    cases hg : handleGrant params st r with
    | error e => rw [hg] at h; cases h
    | ok stm =>
      rw [hg] at h
      rcases handleGrant_spec hg with ⟨tg, pnew, g2, hstm, hpe⟩
      have hpeval := hpe (hpq r (List.mem_cons_self r t))
      have hevm : EInv stm.events := by
        intro e he p hk
        rw [hstm] at he
        simp only [schedule] at he
        rcases mem_insertEv.mp he with rfl | he
        · simp only at hk
          cases hk
          exact hpeval
        · exact hev e he p hk
      have hcnt : activeEvents stm.events = activeEvents st.events + 1 := by
        rw [hstm]
        simp only [schedule]
        rw [activeEvents_insertEv]
        simp [isEnd]
      have hframe : stm.log = st.log ∧ stm.verify = st.verify ∧ stm.nextPid = st.nextPid ∧
          stm.reg = st.reg ∧ stm.phleb = st.phleb ∧ stm.machine_fast = st.machine_fast ∧
          stm.machine_slow = st.machine_slow ∧ stm.archive = st.archive ∧ stm.now = st.now := by
        rw [hstm]
        simp [schedule]
      rcases ih stm st1 h (fun g hgm => hpq g (List.mem_cons_of_mem r hgm)) hevm with
        ⟨i1, i2, i3, i4, i5, i6, i7, i8, i9, i10, i11⟩
      refine ⟨i1, ?_, ?_, ?_, ?_, ?_, ?_, ?_, ?_, ?_, ?_⟩
      · rw [i2, hframe.1]
      · rw [i3, hframe.2.1]
      · rw [i4, hframe.2.2.1]
      · rw [i5, hframe.2.2.2.1]
      · rw [i6, hframe.2.2.2.2.1]
      · rw [i7, hframe.2.2.2.2.2.1]
      · rw [i8, hframe.2.2.2.2.2.2.1]
      · rw [i9, hframe.2.2.2.2.2.2.2.1]
      · rw [i10, hframe.2.2.2.2.2.2.2.2]
      · rw [i11, hcnt, List.length_cons]
        omega

lemma counted_append (w : ℚ) (f : Record → ℚ) (l : List Record) (r : Record) :
    counted w f (l ++ [r]) = counted w f l ++ (if w ≤ r.arrival then [f r] else []) := by
  unfold counted
  rw [List.filter_append]
  by_cases h : w ≤ r.arrival <;> simp [h]

lemma finishPatient_spec (params : Params) (st : SimState) (p : PatientState)
    (heq : p.arrival + waitsSum p + p.servicesSum = st.now)
    (hsv : 0 ≤ p.servicesSum) :
    (finishPatient params st p).events = st.events ∧
    (finishPatient params st p).reg = st.reg ∧
    (finishPatient params st p).phleb = st.phleb ∧
    (finishPatient params st p).machine_fast = st.machine_fast ∧
    (finishPatient params st p).machine_slow = st.machine_slow ∧
    (finishPatient params st p).verify = st.verify ∧
    (finishPatient params st p).nextPid = st.nextPid ∧
    (finishPatient params st p).log.counts = st.log.counts ∧
    (finishPatient params st p).log.patients.length = st.log.patients.length + 1 ∧
    (st.log.patients = st.archive.map Prod.fst →
      (finishPatient params st p).log.patients = (finishPatient params st p).archive.map Prod.fst) ∧
    (∀ pr ∈ (finishPatient params st p).archive, pr ∈ st.archive ∨ ArchRec pr) ∧
    (LInv params.warm_up st.log st.verify.isSome →
      LInv params.warm_up (finishPatient params st p).log (finishPatient params st p).verify.isSome) := by
  have harch : ArchRec
      ({ pid := p.pid, arrival := p.arrival, finish := st.now,
         priority := p.priority, test_type := p.test_type,
         wait_reg := p.wait_reg, wait_sample := p.wait_sample,
         wait_machine := p.wait_machine, wait_verify := p.wait_verify,
         system_time := st.now - p.arrival }, p.servicesSum) := by
    refine ⟨rfl, ?_, hsv⟩
    simp only [recWaits, waitsSum] at heq ⊢
    linarith
  by_cases hw : params.warm_up ≤ p.arrival
  · simp only [finishPatient, hw, if_true]
    refine ⟨by trivial, by trivial, by trivial, by trivial, by trivial, by trivial, by trivial, by trivial, by simp, ?_, ?_, ?_⟩
    · intro hmap
      simp [hmap]
    · intro pr hpr
      rcases List.mem_append.mp hpr with h | h
      · exact Or.inl h
      · right
        rcases List.mem_singleton.mp h with rfl
        exact harch
    · rintro ⟨l1, l2, l3, l4, l5⟩
      refine ⟨?_, ?_, ?_, ?_, ?_⟩
      · rw [l1, counted_append]
        simp [hw]
      · rw [l2, counted_append]
        simp [hw]
      · rw [l3, counted_append]
        simp [hw]
      · rw [l4, counted_append]
        simp [hw]
      · cases hvs : st.verify.isSome
        · simp only [hvs, if_false, Bool.false_eq_true]
          simpa [hvs] using l5
        · simp only [hvs, if_true]
          rw [counted_append]
          simp only [hvs, if_true] at l5
          simp [l5, hw]
  · simp only [finishPatient, hw, if_false]
    refine ⟨by trivial, by trivial, by trivial, by trivial, by trivial, by trivial, by trivial, by trivial, by simp, ?_, ?_, ?_⟩
    · intro hmap
      simp [hmap]
    · intro pr hpr
      rcases List.mem_append.mp hpr with h | h
      · exact Or.inl h
      · right
        rcases List.mem_singleton.mp h with rfl
        exact harch
    · rintro ⟨l1, l2, l3, l4, l5⟩
      refine ⟨?_, ?_, ?_, ?_, ?_⟩
      · rw [l1, counted_append]
        simp [hw]
      · rw [l2, counted_append]
        simp [hw]
      · rw [l3, counted_append]
        simp [hw]
      · rw [l4, counted_append]
        simp [hw]
      · cases hvs : st.verify.isSome
        · simp only [hvs, if_false, Bool.false_eq_true]
          simpa [hvs] using l5
        · simp only [hvs, if_true]
          rw [counted_append]
          simp only [hvs, if_true] at l5
          simp [l5, hw]

/-- Completion preserves the global invariant and adds one completed
record to the system count. -/
lemma finish_Inv {params : Params} {st : SimState} {p : PatientState}
    (hinv : Inv params.warm_up st)
    (heq : p.arrival + waitsSum p + p.servicesSum = st.now)
    (hsv : 0 ≤ p.servicesSum) :
    Inv params.warm_up (finishPatient params st p) ∧
    (finishPatient params st p).nextPid = st.nextPid ∧
    (finishPatient params st p).log.counts = st.log.counts ∧
    sysCount (finishPatient params st p) = sysCount st + 1 ∧
    (finishPatient params st p).verify = st.verify := by
  rcases finishPatient_spec params st p heq hsv with
    ⟨f1, f2, f3, f4, f5, f6, f7, f8, f9, f10, f11, f12⟩
  refine ⟨?_, f7, f8, ?_, f6⟩
  · exact
      { hreg := f2 ▸ hinv.hreg,
        hphleb := f3 ▸ hinv.hphleb,
        hfast := f4 ▸ hinv.hfast,
        hslow := f5 ▸ hinv.hslow,
        hverify := fun r hr => hinv.hverify r (f6 ▸ hr),
        hev := f1 ▸ hinv.hev,
        harchmap := f10 hinv.harchmap,
        harch := fun pr hpr => (f11 pr hpr).elim (fun h => hinv.harch pr h) id,
        hlog := f12 hinv.hlog }
  · unfold sysCount queuedCount
    rw [f1, f2, f3, f4, f5, f6, f9]
    omega

lemma PQ_start {now : ℚ} {s : Stage} {p0 : PatientState} (pd : ℚ)
    (hready : Ready now s p0) :
    PQ { p0 with stage := s, qstart := now, pendingService := pd } := by
  obtain ⟨h1, h2, h3⟩ := hready
  refine ⟨?_, h2, ?_⟩
  · show now = p0.arrival +
      (p0.wait_reg + p0.wait_sample + p0.wait_machine + p0.wait_verify) + p0.servicesSum
    simp only [waitsSum] at h1
    linarith
  · show zeroFrom s _
    cases s <;> simpa [zeroFrom] using h3

lemma startStage_spec {params : Params} {st st1 : SimState} {p0 : PatientState} {s : Stage}
    (h : startStage params st p0 s = Except.ok st1)
    (hready : Ready st.now s p0)
    (hinv : Inv params.warm_up st) :
    Inv params.warm_up st1 ∧ st1.nextPid = st.nextPid ∧
    st1.log.counts = st.log.counts ∧ sysCount st1 = sysCount st + 1 ∧
    st1.verify.isSome = st.verify.isSome := by
  cases s with
  | reg =>
    simp only [startStage] at h
    have hpq : PQ { p0 with stage := Stage.reg, qstart := st.now } :=
      PQ_start p0.pendingService hready
    have hgs : ∀ g ∈ (Resource.request st.reg p0.priority
        { p0 with stage := Stage.reg, qstart := st.now }).2, PQ g.pat := by
      intro g hg
      rcases request_grants_mem hg with rfl | hgq
      · exact hpq
      · exact hinv.hreg g hgq
    rcases handleGrants_spec _ _ st1 h hgs hinv.hev with
      ⟨e1, e2, e3, e4, e5, e6, e7, e8, e9, e10, e11⟩
    have e2' : st1.log = st.log := e2
    have e3' : st1.verify = st.verify := e3
    have e4' : st1.nextPid = st.nextPid := e4
    have e9' : st1.archive = st.archive := e9
    have hc := request_count st.reg p0.priority { p0 with stage := Stage.reg, qstart := st.now }
    refine ⟨?_, e4', by rw [e2'], ?_, by rw [e3']⟩
    · refine
        { hreg := ?_,
          hphleb := by rw [show st1.phleb = st.phleb from e6]; exact hinv.hphleb,
          hfast := by rw [show st1.machine_fast = st.machine_fast from e7]; exact hinv.hfast,
          hslow := by rw [show st1.machine_slow = st.machine_slow from e8]; exact hinv.hslow,
          hverify := fun r hr => hinv.hverify r (by rw [← e3']; exact hr),
          hev := e1,
          harchmap := by rw [e2', e9']; exact hinv.harchmap,
          harch := by rw [e9']; exact hinv.harch,
          hlog := by rw [e2', e3']; exact hinv.hlog }
      rw [show st1.reg = (Resource.request st.reg p0.priority
        { p0 with stage := Stage.reg, qstart := st.now }).1 from e5]
      intro q hq
      rcases request_queue_mem hq with rfl | hqq
      · exact hpq
      · exact hinv.hreg q hqq
    · have e11' : activeEvents st1.events = activeEvents st.events +
        (Resource.request st.reg p0.priority
          { p0 with stage := Stage.reg, qstart := st.now }).2.length := e11
      unfold sysCount queuedCount
      rw [e2', e3',
        show st1.reg = (Resource.request st.reg p0.priority
          { p0 with stage := Stage.reg, qstart := st.now }).1 from e5,
        show st1.phleb = st.phleb from e6,
        show st1.machine_fast = st.machine_fast from e7,
        show st1.machine_slow = st.machine_slow from e8, e11']
      omega
  | phleb =>
    simp only [startStage] at h
    have hpq : PQ { p0 with stage := Stage.phleb, qstart := st.now } :=
      PQ_start p0.pendingService hready
    have hgs : ∀ g ∈ (Resource.request st.phleb p0.priority
        { p0 with stage := Stage.phleb, qstart := st.now }).2, PQ g.pat := by
      intro g hg
      rcases request_grants_mem hg with rfl | hgq
      · exact hpq
      · exact hinv.hphleb g hgq
    rcases handleGrants_spec _ _ st1 h hgs hinv.hev with
      ⟨e1, e2, e3, e4, e5, e6, e7, e8, e9, e10, e11⟩
    have e2' : st1.log = st.log := e2
    have e3' : st1.verify = st.verify := e3
    have e4' : st1.nextPid = st.nextPid := e4
    have e9' : st1.archive = st.archive := e9
    have hc := request_count st.phleb p0.priority { p0 with stage := Stage.phleb, qstart := st.now }
    refine ⟨?_, e4', by rw [e2'], ?_, by rw [e3']⟩
    · refine
        { hreg := by rw [show st1.reg = st.reg from e5]; exact hinv.hreg,
          hphleb := ?_,
          hfast := by rw [show st1.machine_fast = st.machine_fast from e7]; exact hinv.hfast,
          hslow := by rw [show st1.machine_slow = st.machine_slow from e8]; exact hinv.hslow,
          hverify := fun r hr => hinv.hverify r (by rw [← e3']; exact hr),
          hev := e1,
          harchmap := by rw [e2', e9']; exact hinv.harchmap,
          harch := by rw [e9']; exact hinv.harch,
          hlog := by rw [e2', e3']; exact hinv.hlog }
      rw [show st1.phleb = (Resource.request st.phleb p0.priority
        { p0 with stage := Stage.phleb, qstart := st.now }).1 from e6]
      intro q hq
      rcases request_queue_mem hq with rfl | hqq
      · exact hpq
      · exact hinv.hphleb q hqq
    · have e11' : activeEvents st1.events = activeEvents st.events +
        (Resource.request st.phleb p0.priority
          { p0 with stage := Stage.phleb, qstart := st.now }).2.length := e11
      unfold sysCount queuedCount
      rw [e2', e3',
        show st1.phleb = (Resource.request st.phleb p0.priority
          { p0 with stage := Stage.phleb, qstart := st.now }).1 from e6,
        show st1.reg = st.reg from e5,
        show st1.machine_fast = st.machine_fast from e7,
        show st1.machine_slow = st.machine_slow from e8, e11']
      omega
  | machine =>
    simp only [startStage] at h
    set sv := get_service_time params.service_time
      (if p0.test_type = TestType.fast then SKey.test_fast else SKey.test_slow) st.rng with hsv
    split at h
    · rename_i htt
      set pm : PatientState :=
        { p0 with stage := Stage.machine, qstart := st.now, pendingService := sv.1 } with hpm
      have hpq : PQ pm := PQ_start sv.1 hready
      have hgs : ∀ g ∈ (Resource.request st.machine_fast p0.priority pm).2, PQ g.pat := by
        intro g hg
        rcases request_grants_mem hg with rfl | hgq
        · exact hpq
        · exact hinv.hfast g hgq
      rcases handleGrants_spec _ _ st1 h hgs hinv.hev with
        ⟨e1, e2, e3, e4, e5, e6, e7, e8, e9, e10, e11⟩
      have e2' : st1.log = st.log := e2
      have e3' : st1.verify = st.verify := e3
      have e4' : st1.nextPid = st.nextPid := e4
      have e9' : st1.archive = st.archive := e9
      have hc := request_count st.machine_fast p0.priority pm
      refine ⟨?_, e4', by rw [e2'], ?_, by rw [e3']⟩
      · refine
          { hreg := by rw [show st1.reg = st.reg from e5]; exact hinv.hreg,
            hphleb := by rw [show st1.phleb = st.phleb from e6]; exact hinv.hphleb,
            hfast := ?_,
            hslow := by rw [show st1.machine_slow = st.machine_slow from e8]; exact hinv.hslow,
            hverify := fun r hr => hinv.hverify r (by rw [← e3']; exact hr),
            hev := e1,
            harchmap := by rw [e2', e9']; exact hinv.harchmap,
            harch := by rw [e9']; exact hinv.harch,
            hlog := by rw [e2', e3']; exact hinv.hlog }
        rw [show st1.machine_fast = (Resource.request st.machine_fast p0.priority pm).1 from e7]
        intro q hq
        rcases request_queue_mem hq with rfl | hqq
        · exact hpq
        · exact hinv.hfast q hqq
      · have e11' : activeEvents st1.events = activeEvents st.events +
          (Resource.request st.machine_fast p0.priority pm).2.length := e11
        unfold sysCount queuedCount
        rw [e2', e3',
          show st1.machine_fast = (Resource.request st.machine_fast p0.priority pm).1 from e7,
          show st1.reg = st.reg from e5,
          show st1.phleb = st.phleb from e6,
          show st1.machine_slow = st.machine_slow from e8, e11']
        omega
    · rename_i htt
      set pm : PatientState :=
        { p0 with stage := Stage.machine, qstart := st.now, pendingService := sv.1 } with hpm
      have hpq : PQ pm := PQ_start sv.1 hready
      have hgs : ∀ g ∈ (Resource.request st.machine_slow p0.priority pm).2, PQ g.pat := by
        intro g hg
        rcases request_grants_mem hg with rfl | hgq
        · exact hpq
        · exact hinv.hslow g hgq
      rcases handleGrants_spec _ _ st1 h hgs hinv.hev with
        ⟨e1, e2, e3, e4, e5, e6, e7, e8, e9, e10, e11⟩
      have e2' : st1.log = st.log := e2
      have e3' : st1.verify = st.verify := e3
      have e4' : st1.nextPid = st.nextPid := e4
      have e9' : st1.archive = st.archive := e9
      have hc := request_count st.machine_slow p0.priority pm
      refine ⟨?_, e4', by rw [e2'], ?_, by rw [e3']⟩
      · refine
          { hreg := by rw [show st1.reg = st.reg from e5]; exact hinv.hreg,
            hphleb := by rw [show st1.phleb = st.phleb from e6]; exact hinv.hphleb,
            hfast := by rw [show st1.machine_fast = st.machine_fast from e7]; exact hinv.hfast,
            hslow := ?_,
            hverify := fun r hr => hinv.hverify r (by rw [← e3']; exact hr),
            hev := e1,
            harchmap := by rw [e2', e9']; exact hinv.harchmap,
            harch := by rw [e9']; exact hinv.harch,
            hlog := by rw [e2', e3']; exact hinv.hlog }
        rw [show st1.machine_slow = (Resource.request st.machine_slow p0.priority pm).1 from e8]
        intro q hq
        rcases request_queue_mem hq with rfl | hqq
        · exact hpq
        · exact hinv.hslow q hqq
      · have e11' : activeEvents st1.events = activeEvents st.events +
          (Resource.request st.machine_slow p0.priority pm).2.length := e11
        unfold sysCount queuedCount
        rw [e2', e3',
          show st1.machine_slow = (Resource.request st.machine_slow p0.priority pm).1 from e8,
          show st1.reg = st.reg from e5,
          show st1.phleb = st.phleb from e6,
          show st1.machine_fast = st.machine_fast from e7, e11']
        omega
  | verify =>
    simp only [startStage] at h
    cases hv : st.verify with
    | none =>
      rw [hv] at h
      cases h
      rcases finish_Inv hinv hready.1 hready.2.1 with ⟨i1, i2, i3, i4, i5⟩
      exact ⟨i1, i2, i3, i4, by rw [i5, hv]⟩
    | some res =>
      rw [hv] at h
      have hpq : PQ { p0 with stage := Stage.verify, qstart := st.now } :=
        PQ_start p0.pendingService hready
      have hgs : ∀ g ∈ (Resource.request res p0.priority
          { p0 with stage := Stage.verify, qstart := st.now }).2, PQ g.pat := by
        intro g hg
        rcases request_grants_mem hg with rfl | hgq
        · exact hpq
        · exact hinv.hverify res hv g hgq
      rcases handleGrants_spec _ _ st1 h hgs hinv.hev with
        ⟨e1, e2, e3, e4, e5, e6, e7, e8, e9, e10, e11⟩
      have e2' : st1.log = st.log := e2
      have e3' : st1.verify = some (Resource.request res p0.priority
        { p0 with stage := Stage.verify, qstart := st.now }).1 := e3
      have e4' : st1.nextPid = st.nextPid := e4
      have e9' : st1.archive = st.archive := e9
      have hc := request_count res p0.priority
        { p0 with stage := Stage.verify, qstart := st.now }
      refine ⟨?_, e4', by rw [e2'], ?_, by simp [e3']⟩
      · refine
          { hreg := by rw [show st1.reg = st.reg from e5]; exact hinv.hreg,
            hphleb := by rw [show st1.phleb = st.phleb from e6]; exact hinv.hphleb,
            hfast := by rw [show st1.machine_fast = st.machine_fast from e7]; exact hinv.hfast,
            hslow := by rw [show st1.machine_slow = st.machine_slow from e8]; exact hinv.hslow,
            hverify := ?_,
            hev := e1,
            harchmap := by rw [e2', e9']; exact hinv.harchmap,
            harch := by rw [e9']; exact hinv.harch,
            hlog := by
              rw [e2']
              rw [e3']
              simpa [hv] using hinv.hlog }
        intro r hr
        rw [e3'] at hr
        cases Option.some.inj hr
        intro q hq
        rcases request_queue_mem hq with rfl | hqq
        · exact hpq
        · exact hinv.hverify res hv q hqq
      · unfold sysCount queuedCount
        rw [e2',
          show st1.reg = st.reg from e5,
          show st1.phleb = st.phleb from e6,
          show st1.machine_fast = st.machine_fast from e7,
          show st1.machine_slow = st.machine_slow from e8, e11]
        simp only [e3', hv]
        omega

lemma releaseStage_spec {params : Params} {st st1 : SimState} {p : PatientState}
    (h : releaseStage params st p = Except.ok st1)
    (hinv : Inv params.warm_up st) :
    Inv params.warm_up st1 ∧ st1.nextPid = st.nextPid ∧ st1.log = st.log ∧
    sysCount st1 = sysCount st ∧ st1.now = st.now ∧
    st1.verify.isSome = st.verify.isSome := by
  cases hps : p.stage with
  | reg =>
    simp only [releaseStage, hps] at h
    have hgs : ∀ g ∈ (Resource.release st.reg p.pid).2, PQ g.pat := by
      intro g hg
      exact hinv.hreg g (release_grants_mem hg)
    rcases handleGrants_spec _ _ st1 h hgs hinv.hev with
      ⟨e1, e2, e3, e4, e5, e6, e7, e8, e9, e10, e11⟩
    have e2' : st1.log = st.log := e2
    have e3' : st1.verify = st.verify := e3
    have e4' : st1.nextPid = st.nextPid := e4
    have e9' : st1.archive = st.archive := e9
    have e10' : st1.now = st.now := e10
    have e11' : activeEvents st1.events = activeEvents st.events +
      (Resource.release st.reg p.pid).2.length := e11
    have hc := release_count st.reg p.pid
    refine ⟨?_, e4', e2', ?_, e10', by rw [e3']⟩
    · refine
        { hreg := ?_,
          hphleb := by rw [show st1.phleb = st.phleb from e6]; exact hinv.hphleb,
          hfast := by rw [show st1.machine_fast = st.machine_fast from e7]; exact hinv.hfast,
          hslow := by rw [show st1.machine_slow = st.machine_slow from e8]; exact hinv.hslow,
          hverify := fun r hr => hinv.hverify r (by rw [← e3']; exact hr),
          hev := e1,
          harchmap := by rw [e2', e9']; exact hinv.harchmap,
          harch := by rw [e9']; exact hinv.harch,
          hlog := by rw [e2', e3']; exact hinv.hlog }
      rw [show st1.reg = (Resource.release st.reg p.pid).1 from e5]
      intro q hq
      exact hinv.hreg q (release_queue_mem hq)
    · unfold sysCount queuedCount
      rw [e2', e3',
        show st1.reg = (Resource.release st.reg p.pid).1 from e5,
        show st1.phleb = st.phleb from e6,
        show st1.machine_fast = st.machine_fast from e7,
        show st1.machine_slow = st.machine_slow from e8, e11']
      omega
  | phleb =>
    simp only [releaseStage, hps] at h
    have hgs : ∀ g ∈ (Resource.release st.phleb p.pid).2, PQ g.pat := by
      intro g hg
      exact hinv.hphleb g (release_grants_mem hg)
    rcases handleGrants_spec _ _ st1 h hgs hinv.hev with
      ⟨e1, e2, e3, e4, e5, e6, e7, e8, e9, e10, e11⟩
    have e2' : st1.log = st.log := e2
    have e3' : st1.verify = st.verify := e3
    have e4' : st1.nextPid = st.nextPid := e4
    have e9' : st1.archive = st.archive := e9
    have e10' : st1.now = st.now := e10
    have e11' : activeEvents st1.events = activeEvents st.events +
      (Resource.release st.phleb p.pid).2.length := e11
    have hc := release_count st.phleb p.pid
    refine ⟨?_, e4', e2', ?_, e10', by rw [e3']⟩
    · refine
        { hreg := by rw [show st1.reg = st.reg from e5]; exact hinv.hreg,
          hphleb := ?_,
          hfast := by rw [show st1.machine_fast = st.machine_fast from e7]; exact hinv.hfast,
          hslow := by rw [show st1.machine_slow = st.machine_slow from e8]; exact hinv.hslow,
          hverify := fun r hr => hinv.hverify r (by rw [← e3']; exact hr),
          hev := e1,
          harchmap := by rw [e2', e9']; exact hinv.harchmap,
          harch := by rw [e9']; exact hinv.harch,
          hlog := by rw [e2', e3']; exact hinv.hlog }
      rw [show st1.phleb = (Resource.release st.phleb p.pid).1 from e6]
      intro q hq
      exact hinv.hphleb q (release_queue_mem hq)
    · unfold sysCount queuedCount
      rw [e2', e3',
        show st1.phleb = (Resource.release st.phleb p.pid).1 from e6,
        show st1.reg = st.reg from e5,
        show st1.machine_fast = st.machine_fast from e7,
        show st1.machine_slow = st.machine_slow from e8, e11']
      omega
  | machine =>
    simp only [releaseStage, hps] at h
    split at h
    · rename_i htt
      have hgs : ∀ g ∈ (Resource.release st.machine_fast p.pid).2, PQ g.pat := by
        intro g hg
        exact hinv.hfast g (release_grants_mem hg)
      rcases handleGrants_spec _ _ st1 h hgs hinv.hev with
        ⟨e1, e2, e3, e4, e5, e6, e7, e8, e9, e10, e11⟩
      have e2' : st1.log = st.log := e2
      have e3' : st1.verify = st.verify := e3
      have e4' : st1.nextPid = st.nextPid := e4
      have e9' : st1.archive = st.archive := e9
      have e10' : st1.now = st.now := e10
      have e11' : activeEvents st1.events = activeEvents st.events +
        (Resource.release st.machine_fast p.pid).2.length := e11
      have hc := release_count st.machine_fast p.pid
      refine ⟨?_, e4', e2', ?_, e10', by rw [e3']⟩
      · refine
          { hreg := by rw [show st1.reg = st.reg from e5]; exact hinv.hreg,
            hphleb := by rw [show st1.phleb = st.phleb from e6]; exact hinv.hphleb,
            hfast := ?_,
            hslow := by rw [show st1.machine_slow = st.machine_slow from e8]; exact hinv.hslow,
            hverify := fun r hr => hinv.hverify r (by rw [← e3']; exact hr),
            hev := e1,
            harchmap := by rw [e2', e9']; exact hinv.harchmap,
            harch := by rw [e9']; exact hinv.harch,
            hlog := by rw [e2', e3']; exact hinv.hlog }
        rw [show st1.machine_fast = (Resource.release st.machine_fast p.pid).1 from e7]
        intro q hq
        exact hinv.hfast q (release_queue_mem hq)
      · unfold sysCount queuedCount
        rw [e2', e3',
          show st1.machine_fast = (Resource.release st.machine_fast p.pid).1 from e7,
          show st1.reg = st.reg from e5,
          show st1.phleb = st.phleb from e6,
          show st1.machine_slow = st.machine_slow from e8, e11']
        omega
    · rename_i htt
      have hgs : ∀ g ∈ (Resource.release st.machine_slow p.pid).2, PQ g.pat := by
        intro g hg
        exact hinv.hslow g (release_grants_mem hg)
      rcases handleGrants_spec _ _ st1 h hgs hinv.hev with
        ⟨e1, e2, e3, e4, e5, e6, e7, e8, e9, e10, e11⟩
      have e2' : st1.log = st.log := e2
      have e3' : st1.verify = st.verify := e3
      have e4' : st1.nextPid = st.nextPid := e4
      have e9' : st1.archive = st.archive := e9
      have e10' : st1.now = st.now := e10
      have e11' : activeEvents st1.events = activeEvents st.events +
        (Resource.release st.machine_slow p.pid).2.length := e11
      have hc := release_count st.machine_slow p.pid
      refine ⟨?_, e4', e2', ?_, e10', by rw [e3']⟩
      · refine
          { hreg := by rw [show st1.reg = st.reg from e5]; exact hinv.hreg,
            hphleb := by rw [show st1.phleb = st.phleb from e6]; exact hinv.hphleb,
            hfast := by rw [show st1.machine_fast = st.machine_fast from e7]; exact hinv.hfast,
            hslow := ?_,
            hverify := fun r hr => hinv.hverify r (by rw [← e3']; exact hr),
            hev := e1,
            harchmap := by rw [e2', e9']; exact hinv.harchmap,
            harch := by rw [e9']; exact hinv.harch,
            hlog := by rw [e2', e3']; exact hinv.hlog }
        rw [show st1.machine_slow = (Resource.release st.machine_slow p.pid).1 from e8]
        intro q hq
        exact hinv.hslow q (release_queue_mem hq)
      · unfold sysCount queuedCount
        rw [e2', e3',
          show st1.machine_slow = (Resource.release st.machine_slow p.pid).1 from e8,
          show st1.reg = st.reg from e5,
          show st1.phleb = st.phleb from e6,
          show st1.machine_fast = st.machine_fast from e7, e11']
        omega
  | verify =>
    simp only [releaseStage, hps] at h
    cases hv : st.verify with
    | none =>
      rw [hv] at h
      cases h
      refine ⟨hinv, rfl, rfl, rfl, rfl, ?_⟩
      rw [hv]
    | some res =>
      rw [hv] at h
      have hgs : ∀ g ∈ (Resource.release res p.pid).2, PQ g.pat := by
        intro g hg
        exact hinv.hverify res hv g (release_grants_mem hg)
      rcases handleGrants_spec _ _ st1 h hgs hinv.hev with
        ⟨e1, e2, e3, e4, e5, e6, e7, e8, e9, e10, e11⟩
      have e2' : st1.log = st.log := e2
      have e3' : st1.verify = some (Resource.release res p.pid).1 := e3
      have e4' : st1.nextPid = st.nextPid := e4
      have e9' : st1.archive = st.archive := e9
      have e10' : st1.now = st.now := e10
      have e11' : activeEvents st1.events = activeEvents st.events +
        (Resource.release res p.pid).2.length := e11
      have hc := release_count res p.pid
      refine ⟨?_, e4', e2', ?_, e10', by simp [e3']⟩
      · refine
          { hreg := by rw [show st1.reg = st.reg from e5]; exact hinv.hreg,
            hphleb := by rw [show st1.phleb = st.phleb from e6]; exact hinv.hphleb,
            hfast := by rw [show st1.machine_fast = st.machine_fast from e7]; exact hinv.hfast,
            hslow := by rw [show st1.machine_slow = st.machine_slow from e8]; exact hinv.hslow,
            hverify := ?_,
            hev := e1,
            harchmap := by rw [e2', e9']; exact hinv.harchmap,
            harch := by rw [e9']; exact hinv.harch,
            hlog := by
              rw [e2']
              rw [e3']
              simpa [hv] using hinv.hlog }
        intro r hr
        rw [e3'] at hr
        cases Option.some.inj hr
        intro q hq
        exact hinv.hverify res hv q (release_queue_mem hq)
      · unfold sysCount queuedCount
        rw [e2',
          show st1.reg = st.reg from e5,
          show st1.phleb = st.phleb from e6,
          show st1.machine_fast = st.machine_fast from e7,
          show st1.machine_slow = st.machine_slow from e8, e11']
        simp only [e3', hv]
        omega

lemma handleEndService_spec {params : Params} {st st1 : SimState} {p : PatientState}
    (h : handleEndService params st p = Except.ok st1)
    (hpe : PE st.now p)
    (hinv : Inv params.warm_up st) :
    Inv params.warm_up st1 ∧ st1.nextPid = st.nextPid ∧
    st1.log.counts = st.log.counts ∧ sysCount st1 = sysCount st + 1 ∧
    st1.verify.isSome = st.verify.isSome := by
  unfold handleEndService at h
  cases hr : releaseStage params st p with
  | error e =>
    rw [hr] at h
    exact Except.noConfusion h
  | ok st2 =>
    simp only [hr] at h
    rcases releaseStage_spec hr hinv with ⟨i1, i2, i3, i4, i5, i6⟩
    obtain ⟨q1, q2, q3⟩ := hpe
    cases hps : p.stage with
    | reg =>
      simp only [hps] at h
      have hready : Ready st2.now Stage.phleb p := by
        refine ⟨by rw [i5]; linarith, q2, ?_⟩
        rw [hps] at q3
        exact q3
      rcases startStage_spec h hready i1 with ⟨s1, s2, s3, s4, s5⟩
      exact ⟨s1, by rw [s2, i2], by rw [s3, i3], by rw [s4, i4], by rw [s5, i6]⟩
    | phleb =>
      simp only [hps] at h
      have hready : Ready st2.now Stage.machine p := by
        refine ⟨by rw [i5]; linarith, q2, ?_⟩
        rw [hps] at q3
        exact q3
      rcases startStage_spec h hready i1 with ⟨s1, s2, s3, s4, s5⟩
      exact ⟨s1, by rw [s2, i2], by rw [s3, i3], by rw [s4, i4], by rw [s5, i6]⟩
    | machine =>
      simp only [hps] at h
      cases hv2 : st2.verify with
      | some res2 =>
        rw [hv2] at h
        have hready : Ready st2.now Stage.verify p := by
          refine ⟨by rw [i5]; linarith, q2, ?_⟩
          rw [hps] at q3
          exact q3
        rcases startStage_spec h hready i1 with ⟨s1, s2, s3, s4, s5⟩
        exact ⟨s1, by rw [s2, i2], by rw [s3, i3], by rw [s4, i4], by rw [s5, i6]⟩
      | none =>
        rw [hv2] at h
        cases h
        have heq : p.arrival + waitsSum p + p.servicesSum = st2.now := by
          rw [i5]
          linarith
        rcases finish_Inv i1 heq q2 with ⟨f1, f2, f3, f4, f5⟩
        exact ⟨f1, by rw [f2, i2], by rw [f3, i3], by rw [f4, i4], by rw [f5, i6]⟩
    | verify =>
      simp only [hps] at h
      cases h
      have heq : p.arrival + waitsSum p + p.servicesSum = st2.now := by
        rw [i5]
        linarith
      rcases finish_Inv i1 heq q2 with ⟨f1, f2, f3, f4, f5⟩
      exact ⟨f1, by rw [f2, i2], by rw [f3, i3], by rw [f4, i4], by rw [f5, i6]⟩

lemma sysCount_schedule_arrival (st : SimState) (t : ℚ) :
    sysCount (schedule st t EvKind.arrival) = sysCount st := by
  unfold sysCount queuedCount
  simp [schedule, activeEvents_insertEv, isEnd]

lemma bumpCounts_priority_sum (c0 : Counts) (prio : ℤ) (tt : TestType) :
    (bumpCounts c0 prio tt).priority + (bumpCounts c0 prio tt).normal
      = c0.priority + c0.normal + 1 := by
  unfold bumpCounts
  by_cases h1 : prio = 0 <;> by_cases h2 : tt = TestType.fast <;> simp [h1, h2] <;> omega

lemma bumpCounts_fast_sum (c0 : Counts) (prio : ℤ) (tt : TestType) :
    (bumpCounts c0 prio tt).fast + (bumpCounts c0 prio tt).slow
      = c0.fast + c0.slow + 1 := by
  unfold bumpCounts
  by_cases h1 : prio = 0 <;> by_cases h2 : tt = TestType.fast <;> simp [h1, h2] <;> omega

lemma Ready_newPatient (now : ℚ) (pid : ℕ) (prio : ℤ) (tt : TestType) :
    Ready now Stage.reg (newPatient pid prio tt now) := by
  refine ⟨?_, le_refl 0, ⟨rfl, rfl, rfl, rfl⟩⟩
  show now + (0 + 0 + 0 + 0) + 0 = now
  ring

lemma Inv_bump {w : ℚ} {st : SimState} (hinv : Inv w st) (g2 : RNG) (c2 : Counts) (t : ℚ) :
    Inv w (schedule
      { st with rng := g2, nextPid := st.nextPid + 1, log := { st.log with counts := c2 } }
      t EvKind.arrival) := by
  refine
    { hreg := hinv.hreg, hphleb := hinv.hphleb, hfast := hinv.hfast,
      hslow := hinv.hslow, hverify := hinv.hverify, hev := ?_,
      harchmap := hinv.harchmap, harch := hinv.harch, hlog := hinv.hlog }
  intro e he k hk
  rcases mem_insertEv.mp he with rfl | he
  · simp at hk
  · exact hinv.hev e he k hk

lemma sysCount_bump (st : SimState) (g2 : RNG) (c2 : Counts) (t : ℚ) :
    sysCount (schedule
      { st with rng := g2, nextPid := st.nextPid + 1, log := { st.log with counts := c2 } }
      t EvKind.arrival) = sysCount st := by
  rw [sysCount_schedule_arrival]
  rfl

lemma handleArrival_spec {params : Params} {st st1 : SimState}
    (h : handleArrival params st = Except.ok st1)
    (hinv : Inv params.warm_up st) :
    Inv params.warm_up st1 ∧ st1.nextPid = st.nextPid + 1 ∧
    st1.log.counts.priority + st1.log.counts.normal
      = st.log.counts.priority + st.log.counts.normal + 1 ∧
    st1.log.counts.fast + st1.log.counts.slow
      = st.log.counts.fast + st.log.counts.slow + 1 ∧
    sysCount st1 = sysCount st + 1 ∧
    st1.verify.isSome = st.verify.isSome := by
  simp only [handleArrival] at h
  split at h
  · exact Except.noConfusion h
  · rename_i ia hia
    split at h
    · exact Except.noConfusion h
    · rename_i hneg
      have hinv2 := Inv_bump hinv ia.2
        (bumpCounts st.log.counts (sample_priority params.p_priority st.rng).1
          (sample_test_type params.p_fast (sample_priority params.p_priority st.rng).2).1)
        (st.now + ia.1)
      have hready := Ready_newPatient st.now st.nextPid
        (sample_priority params.p_priority st.rng).1
        (sample_test_type params.p_fast (sample_priority params.p_priority st.rng).2).1
      rcases startStage_spec h hready hinv2 with ⟨s1, s2, s3, s4, s5⟩
      have s2' : st1.nextPid = st.nextPid + 1 := s2
      have s5' : st1.verify.isSome = st.verify.isSome := s5
      have s3' : st1.log.counts = bumpCounts st.log.counts
        (sample_priority params.p_priority st.rng).1
        (sample_test_type params.p_fast (sample_priority params.p_priority st.rng).2).1 := s3
      refine ⟨s1, s2', ?_, ?_, ?_, s5'⟩
      · rw [s3', bumpCounts_priority_sum]
      · rw [s3', bumpCounts_fast_sum]
      · rw [s4, sysCount_bump]

/-- The condition under which run_simulation builds a verification pool. -/
def verifyEnabled (params : Params) : Bool :=
  params.use_verify && decide (0 < params.c_verify)

/-- The combined invariant carried through env.run: the global invariant,
both composition-counter sums equal to the number of spawned patients, the
conservation of patients (completed + queued + in service = spawned), and
the verification-pool flag. -/
def GInv (params : Params) (st : SimState) : Prop :=
  Inv params.warm_up st ∧
  st.log.counts.priority + st.log.counts.normal = st.nextPid ∧
  st.log.counts.fast + st.log.counts.slow = st.nextPid ∧
  sysCount st = st.nextPid ∧
  st.verify.isSome = verifyEnabled params

lemma stepSim_spec {params : Params} {st st1 : SimState}
    (h : stepSim params st = Except.ok (some st1))
    (hg : GInv params st) : GInv params st1 := by
  obtain ⟨hinv, hc1, hc2, hc3, hc4⟩ := hg
  unfold stepSim at h
  split at h
  · exact absurd h (by simp)
  · rename_i e rest heq
    split at h
    · rename_i hlt
      have hinv' : Inv params.warm_up { st with now := e.time, events := rest } :=
        { hreg := hinv.hreg, hphleb := hinv.hphleb, hfast := hinv.hfast,
          hslow := hinv.hslow, hverify := hinv.hverify,
          hev := fun e2 he2 => hinv.hev e2 (by rw [heq]; exact List.mem_cons_of_mem e he2),
          harchmap := hinv.harchmap, harch := hinv.harch, hlog := hinv.hlog }
      have hcount_split : activeEvents st.events
          = activeEvents rest + (if isEnd e then 1 else 0) := by
        rw [heq]
        unfold activeEvents
        rw [List.countP_cons]
      cases hkind : e.kind with
      | arrival =>
        simp only [hkind] at h
        cases har : handleArrival params { st with now := e.time, events := rest } with
        | error er => rw [har] at h; exact absurd h (by simp [Except.map])
        | ok st1a =>
          rw [har] at h
          have hst1 : st1a = st1 := by
            simpa [Except.map] using h
          subst hst1
          rcases handleArrival_spec har hinv' with ⟨a1, a2, a3, a4, a5, a6⟩
          have a2' : st1a.nextPid = st.nextPid + 1 := a2
          have hisend : isEnd e = false := by
            simp [isEnd, hkind]
          refine ⟨a1, ?_, ?_, ?_, ?_⟩
          · have h3 : st1a.log.counts.priority + st1a.log.counts.normal
                = st.log.counts.priority + st.log.counts.normal + 1 := a3
            omega
          · have h4 : st1a.log.counts.fast + st1a.log.counts.slow
                = st.log.counts.fast + st.log.counts.slow + 1 := a4
            omega
          · have h5 : sysCount st1a
                = sysCount { st with now := e.time, events := rest } + 1 := a5
            have hmid : sysCount { st with now := e.time, events := rest }
                = st.log.patients.length + queuedCount st + activeEvents rest := by
              unfold sysCount queuedCount
              rfl
            have hall : sysCount st
                = st.log.patients.length + queuedCount st + activeEvents st.events := by
              unfold sysCount queuedCount
              rfl
            simp [hisend] at hcount_split
            omega
          · exact a6.trans hc4
      | endService p =>
        simp only [hkind] at h
        have hpe : PE ({ st with now := e.time, events := rest } : SimState).now p := by
          have := hinv.hev e (by rw [heq]; exact List.mem_cons_self e rest) p hkind
          exact this
        cases her : handleEndService params { st with now := e.time, events := rest } p with
        | error er => rw [her] at h; exact absurd h (by simp [Except.map])
        | ok st1a =>
          rw [her] at h
          have hst1 : st1a = st1 := by
            simpa [Except.map] using h
          subst hst1
          rcases handleEndService_spec her hpe hinv' with ⟨a1, a2, a3, a4, a5⟩
          have a2' : st1a.nextPid = st.nextPid := a2
          have hisend : isEnd e = true := by
            simp [isEnd, hkind]
          refine ⟨a1, ?_, ?_, ?_, ?_⟩
          · have h3 : st1a.log.counts = st.log.counts := a3
            rw [h3, a2']
            exact hc1
          · have h3 : st1a.log.counts = st.log.counts := a3
            rw [h3, a2']
            exact hc2
          · have h5 : sysCount st1a
                = sysCount { st with now := e.time, events := rest } + 1 := a4
            have hmid : sysCount { st with now := e.time, events := rest }
                = st.log.patients.length + queuedCount st + activeEvents rest := by
              unfold sysCount queuedCount
              rfl
            have hall : sysCount st
                = st.log.patients.length + queuedCount st + activeEvents st.events := by
              unfold sysCount queuedCount
              rfl
            simp [hisend] at hcount_split
            omega
          · exact a5.trans hc4
    · exact absurd h (by simp)

lemma simLoop_GInv {params : Params} :
    ∀ (fuel : ℕ) (st st1 : SimState),
      simLoop params fuel st = Except.ok st1 → GInv params st → GInv params st1 := by
  intro fuel
  induction fuel with
  | zero =>
    intro st st1 h hg
    cases h
    exact hg
  | succ n ih =>
    intro st st1 h hg
    simp only [simLoop] at h
    split at h
    · exact Except.noConfusion h
    · cases h
      exact hg
    · rename_i st2 hstep
      exact ih st2 st1 h (stepSim_spec hstep hg)

lemma GInv_init (params : Params) (g : RNG) : GInv params (initState params g) := by
  refine ⟨?_, rfl, rfl, ?_, ?_⟩
  · refine
      { hreg := ?_, hphleb := ?_, hfast := ?_, hslow := ?_, hverify := ?_,
        hev := ?_, harchmap := rfl, harch := ?_, hlog := ?_ }
    · intro q hq
      exact absurd hq (by simp [initState, emptyResource])
    · intro q hq
      exact absurd hq (by simp [initState, emptyResource])
    · intro q hq
      exact absurd hq (by simp [initState, emptyResource])
    · intro q hq
      exact absurd hq (by simp [initState, emptyResource])
    · intro r hr
      simp only [initState] at hr
      split at hr
      · cases Option.some.inj hr
        intro q hq
        exact absurd hq (by simp [emptyResource])
      · exact Option.noConfusion hr
    · intro e he p hk
      have : e = { time := 0, eid := 0, kind := EvKind.arrival } := by
        simpa [initState] using he
      subst this
      simp at hk
    · intro pr hpr
      exact absurd hpr (by simp [initState])
    · refine ⟨rfl, rfl, rfl, rfl, ?_⟩
      show ([] : List ℚ) = if (initState params g).verify.isSome then counted params.warm_up Record.wait_verify [] else []
      split <;> rfl
  · show sysCount (initState params g) = 0
    unfold sysCount queuedCount activeEvents
    by_cases hc : params.use_verify = true ∧ 0 < params.c_verify <;>
      simp [initState, emptyResource, make_log, isEnd, hc]
  · show (initState params g).verify.isSome = verifyEnabled params
    unfold initState verifyEnabled
    split
    · rename_i hcond
      simp [hcond.1, hcond.2]
    · rename_i hcond
      simp only [Option.isSome_none]
      rcases Decidable.not_and_iff_or_not.mp hcond with h1 | h2
      · simp [Bool.eq_false_iff.mpr h1]
      · have : ¬ (0 < params.c_verify) := h2
        simp [decide_eq_false this]

lemma runFull_GInv {params : Params} {seed fuel : ℕ} {g0 : RNG} {st : SimState}
    (h : runFull params seed fuel g0 = Except.ok st) : GInv params st := by
  unfold runFull at h
  split at h
  · exact Except.noConfusion h
  · split at h
    · exact Except.noConfusion h
    · exact simLoop_GInv fuel _ st h (GInv_init params (randomSeed seed))

/-! ### Claim theorems on the simulation run -/

/-- C1: running the simulation twice with the same configuration and the
same seed produces identical event logs.  run_simulation re-seeds the
shared pseudo-random stream on entry, so its result does not depend on the
pre-existing global generator state: two invocations, whatever the global
RNG state each one starts from, return equal logs. -/
theorem determinism_same_seed (params : Params) (seed fuel : ℕ) (g g2 : RNG) :
    run_simulation params seed fuel g = run_simulation params seed fuel g2 := rfl

/-- C2: the run's archive pairs each completed record, in order, with the
accumulated sum of the sampled service durations that patient consumed
(servicesSum, the ghost accumulator charged exactly when a stage duration
is sampled), and for every completed patient record in the log: system_time
equals finish − arrival, system_time is at least the sum of the four stage
waits, and system_time equals that sum plus the archived sum of sampled
service durations, exactly — no slack time. -/
theorem completed_patient_time_decomposition
    (params : Params) (seed fuel : ℕ) (g : RNG) (st : SimState)
    (hrun : runFull params seed fuel g = Except.ok st) :
    st.log.patients = st.archive.map Prod.fst ∧
    ∀ r ∈ st.log.patients, ∃ s, (r, s) ∈ st.archive ∧
      r.system_time = r.finish - r.arrival ∧
      r.wait_reg + r.wait_sample + r.wait_machine + r.wait_verify ≤ r.system_time ∧
      0 ≤ s ∧
      r.system_time = (r.wait_reg + r.wait_sample + r.wait_machine + r.wait_verify) + s := by
  rcases runFull_GInv hrun with ⟨hinv, -, -, -, -⟩
  refine ⟨hinv.harchmap, ?_⟩
  intro r hr
  rw [hinv.harchmap] at hr
  rcases List.mem_map.mp hr with ⟨pr, hpr, rfl⟩
  rcases hinv.harch pr hpr with ⟨h1, h2, h3⟩
  simp only [recWaits] at h2
  exact ⟨pr.2, hpr, h1, by linarith, h3, h2⟩

/-- C4: a patient arriving before the warm-up threshold appears in the
full patient list but its figures are never appended to the counted-metric
lists; a patient arriving at or after the threshold contributes to both.
Each counted list equals the post-warm-up projection of the full list
(wait_verify only when verification is enabled), and the summary mean and
95th percentile of system time are computed from that counted list only. -/
theorem warm_up_filter
    (params : Params) (seed fuel : ℕ) (g : RNG) (lg : Log)
    (hrun : run_simulation params seed fuel g = Except.ok lg) :
    lg.wait_reg = counted params.warm_up Record.wait_reg lg.patients ∧
    lg.wait_sample = counted params.warm_up Record.wait_sample lg.patients ∧
    lg.wait_machine = counted params.warm_up Record.wait_machine lg.patients ∧
    lg.system_time = counted params.warm_up Record.system_time lg.patients ∧
    lg.wait_verify = (if verifyEnabled params
      then counted params.warm_up Record.wait_verify lg.patients else []) ∧
    (summarize lg).mean_system_time
      = safe_mean (counted params.warm_up Record.system_time lg.patients) ∧
    (summarize lg).p95_system_time
      = percentile (counted params.warm_up Record.system_time lg.patients) 95 := by
  unfold run_simulation at hrun
  cases hfull : runFull params seed fuel g with
  | error e =>
    rw [hfull] at hrun
    exact absurd hrun (by simp [Except.map])
  | ok st =>
    rw [hfull] at hrun
    have hlg : st.log = lg := by simpa [Except.map] using hrun
    subst hlg
    rcases runFull_GInv hfull with ⟨hinv, -, -, -, hflag⟩
    rcases hinv.hlog with ⟨l1, l2, l3, l4, l5⟩
    rw [hflag] at l5
    refine ⟨l1, l2, l3, l4, l5, ?_, ?_⟩
    · show safe_mean st.log.system_time = _
      rw [l4]
    · show percentile st.log.system_time 95 = _
      rw [l4]

/-- C10: the composition counters are incremented by the arrival generator
at spawn time: after any run, priority + normal and fast + slow both equal
the total number of spawned patients (the final pid counter), which is at
least the number of completed records in the log — patients that never
reach completion before the horizon, and warm-up patients, are counted. -/
theorem composition_counters
    (params : Params) (seed fuel : ℕ) (g : RNG) (st : SimState)
    (hrun : runFull params seed fuel g = Except.ok st) :
    st.log.counts.priority + st.log.counts.normal = st.nextPid ∧
    st.log.counts.fast + st.log.counts.slow = st.nextPid ∧
    st.log.patients.length ≤ st.nextPid := by
  rcases runFull_GInv hrun with ⟨-, h1, h2, h3, -⟩
  refine ⟨h1, h2, ?_⟩
  unfold sysCount at h3
  omega

/-! ### Concrete evaluation fixtures

The default service-time table of app.py and a small configuration used to
instantiate the run-level theorems at a concrete, fully evaluated run. -/

def wService : ServiceTimes :=
  { registration := { lo := 2, mode := 3, hi := 5 },
    sampling := { lo := 3, mode := 5, hi := 8 },
    test_fast := { lo := 8, mode := 12, hi := 18 },
    test_slow := { lo := 20, mode := 30, hi := 45 },
    verification := { lo := 1, mode := 2, hi := 4 } }

def wParams : Params :=
  { mean_interarrival := 5, p_priority := 1/5, p_fast := 7/10,
    c_reg := 1, c_phleb := 2, c_fast := 1, c_slow := 1,
    use_verify := true, c_verify := 1, sim_time := 30, warm_up := 5,
    verbose := false, max_debug_patients := 0, service_time := wService }

def wRNG : RNG := randomSeed 7

def wState : SimState :=
  match runFull wParams 123 120 wRNG with
  | Except.ok st => st
  | Except.error _ => initState wParams (randomSeed 123)

def wRecordDefault : Record :=
  { pid := 0, arrival := 0, finish := 0, priority := 0, test_type := TestType.fast,
    wait_reg := 0, wait_sample := 0, wait_machine := 0, wait_verify := 0, system_time := 0 }

def wLog : Log :=
  match run_simulation wParams 123 120 wRNG with
  | Except.ok lg => lg
  | Except.error _ => make_log

section WitnessEval

attribute [local semireducible] Rat.add Rat.sub Rat.mul Rat.inv Nat.gcd

/-- C2 witness: the archived exact time decomposition instantiated at a
concrete evaluated run with completed records. -/
theorem completed_patient_time_decomposition_witness :
    wState.log.patients = wState.archive.map Prod.fst ∧
    ∀ r ∈ wState.log.patients, ∃ s, (r, s) ∈ wState.archive ∧
      r.system_time = r.finish - r.arrival ∧
      r.wait_reg + r.wait_sample + r.wait_machine + r.wait_verify ≤ r.system_time ∧
      0 ≤ s ∧
      r.system_time = (r.wait_reg + r.wait_sample + r.wait_machine + r.wait_verify) + s :=
  completed_patient_time_decomposition wParams 123 120 wRNG wState rfl

/-- C4 witness: the warm-up filtering equations instantiated at a concrete
evaluated run (whose log has both pre- and post-warm-up completions). -/
theorem warm_up_filter_witness :
    wLog.wait_reg = counted wParams.warm_up Record.wait_reg wLog.patients ∧
    wLog.wait_sample = counted wParams.warm_up Record.wait_sample wLog.patients ∧
    wLog.wait_machine = counted wParams.warm_up Record.wait_machine wLog.patients ∧
    wLog.system_time = counted wParams.warm_up Record.system_time wLog.patients ∧
    wLog.wait_verify = (if verifyEnabled wParams
      then counted wParams.warm_up Record.wait_verify wLog.patients else []) ∧
    (summarize wLog).mean_system_time
      = safe_mean (counted wParams.warm_up Record.system_time wLog.patients) ∧
    (summarize wLog).p95_system_time
      = percentile (counted wParams.warm_up Record.system_time wLog.patients) 95 :=
  warm_up_filter wParams 123 120 wRNG wLog rfl

/-- C10 witness: the counter identities instantiated at a concrete
evaluated run. -/
theorem composition_counters_witness :
    wState.log.counts.priority + wState.log.counts.normal = wState.nextPid ∧
    wState.log.counts.fast + wState.log.counts.slow = wState.nextPid ∧
    wState.log.patients.length ≤ wState.nextPid :=
  composition_counters wParams 123 120 wRNG wState rfl

end WitnessEval

/-! ### C5: percentile as order-statistic interpolation -/

/-- The percentile in the specification's words: with the list sorted
ascending and rank index k = (n-1)*p/100, linear interpolation between the
order statistics at floor(k) and ceil(k). -/
def specPercentile (xs : List ℚ) (p : ℚ) : ℚ :=
  let s := xs.mergeSort (fun a b => decide (a ≤ b))
  let k : ℚ := ((s.length - 1 : ℕ) : ℚ) * (p / 100)
  let lo := s.getD (Int.floor k).toNat 0
  let hi := s.getD (Int.ceil k).toNat 0
  lo + (k - ((Int.floor k : ℤ) : ℚ)) * (hi - lo)

lemma sortedQ_mergeSort (xs : List ℚ) :
    List.Pairwise (· ≤ ·) (xs.mergeSort (fun a b => decide (a ≤ b))) := by
  have h := @List.sorted_mergeSort ℚ (fun a b : ℚ => decide (a ≤ b))
    (fun a b c hab hbc => by
      simp only [decide_eq_true_eq] at hab hbc ⊢
      exact le_trans hab hbc)
    (fun a b => by simpa using le_total a b) xs
  exact h.imp (by simp)

lemma sorted_head_min {s : List ℚ} (hs : List.Pairwise (· ≤ ·) s) (hne : s ≠ []) :
    s.getD 0 0 ∈ s ∧ ∀ y ∈ s, s.getD 0 0 ≤ y := by
  cases s with
  | nil => exact absurd rfl hne
  | cons a t =>
    rcases List.pairwise_cons.mp hs with ⟨ha, -⟩
    refine ⟨List.mem_cons_self a t, ?_⟩
    intro y hy
    rcases List.mem_cons.mp hy with rfl | hy
    · exact le_refl y
    · exact ha y hy

lemma sorted_last_max {s : List ℚ} (hs : List.Pairwise (· ≤ ·) s) (hne : s ≠ []) :
    s.getD (s.length - 1) 0 ∈ s ∧ ∀ y ∈ s, y ≤ s.getD (s.length - 1) 0 := by
  have hpos : 0 < s.length := List.length_pos.mpr hne
  have hlt : s.length - 1 < s.length := by omega
  have hgd : s.getD (s.length - 1) 0 = s.get ⟨s.length - 1, hlt⟩ := by
    rw [List.getD_eq_getElem?_getD, List.getElem?_eq_getElem hlt]
    rfl
  rw [hgd]
  refine ⟨List.get_mem s (s.length - 1) hlt, ?_⟩
  intro y hy
  rcases List.mem_iff_get.mp hy with ⟨i, rfl⟩
  rcases lt_or_eq_of_le (Nat.le_of_lt_succ (by omega : (i : ℕ) < s.length - 1 + 1)) with hi | hi
  · exact List.pairwise_iff_get.mp hs i ⟨s.length - 1, hlt⟩ (by simpa using hi)
  · rw [show i = (⟨s.length - 1, hlt⟩ : Fin s.length) from Fin.ext hi]

lemma percentileVal_eq_spec (xs : List ℚ) (p : ℚ)
    (h0 : 0 ≤ p) (h1 : p ≤ 100) (hpos : 0 < xs.length) :
    percentileVal xs p = specPercentile xs p := by
  simp only [percentileVal, specPercentile]
  have hlen : (xs.mergeSort (fun a b => decide (a ≤ b))).length = xs.length :=
    (List.mergeSort_perm xs (fun a b : ℚ => decide (a ≤ b))).length_eq
  set s := xs.mergeSort (fun a b => decide (a ≤ b)) with hs
  set k : ℚ := ((s.length - 1 : ℕ) : ℚ) * (p / 100) with hkdef
  have hk0 : (0 : ℚ) ≤ k := by
    rw [hkdef]
    have hple : (0 : ℚ) ≤ p / 100 := by positivity
    positivity
  have hpy : pyInt k = Int.floor k := by
    unfold pyInt
    rw [if_pos hk0]
  have hkle : k ≤ ((s.length - 1 : ℕ) : ℚ) := by
    rw [hkdef]
    have hp1 : p / 100 ≤ 1 := by linarith
    have hnn : (0 : ℚ) ≤ ((s.length - 1 : ℕ) : ℚ) := by positivity
    calc ((s.length - 1 : ℕ) : ℚ) * (p / 100)
        ≤ ((s.length - 1 : ℕ) : ℚ) * 1 := mul_le_mul_of_nonneg_left hp1 hnn
      _ = ((s.length - 1 : ℕ) : ℚ) := mul_one _
  rw [hpy]
  by_cases hfk : (Int.floor k : ℚ) = k
  · have hceil : Int.ceil k = Int.floor k :=
      le_antisymm (Int.ceil_le.mpr (le_of_eq hfk.symm)) (Int.floor_le_ceil k)
    rw [hceil]
    have hzero : k - ((Int.floor k : ℤ) : ℚ) = 0 := sub_eq_zero.mpr hfk.symm
    by_cases hfc : Int.floor k = min (Int.floor k + 1) ((s.length : ℤ) - 1)
    · rw [if_pos hfc, hzero]
      ring
    · rw [if_neg hfc, hzero]
      ring
  · have hflt : (Int.floor k : ℚ) < k := lt_of_le_of_ne (Int.floor_le k) hfk
    have hceil : Int.ceil k = Int.floor k + 1 := by
      have h1c : Int.ceil k ≤ Int.floor k + 1 := Int.ceil_le_floor_add_one k
      have h2c : Int.floor k < Int.ceil k := by
        rw [Int.lt_ceil]
        exact hflt
      omega
    have hsl : 1 ≤ s.length := by omega
    have hcast : ((s.length - 1 : ℕ) : ℚ) = ((s.length : ℤ) : ℚ) - 1 := by
      push_cast [Nat.cast_sub hsl]
      ring
    have hfz : Int.floor k < (s.length : ℤ) - 1 := by
      have h3 : (Int.floor k : ℚ) < ((s.length - 1 : ℕ) : ℚ) := lt_of_lt_of_le hflt hkle
      rw [hcast] at h3
      push_cast at h3
      exact_mod_cast h3
    have hmin : min (Int.floor k + 1) ((s.length : ℤ) - 1) = Int.floor k + 1 :=
      min_eq_left (by omega)
    have hne2 : Int.floor k ≠ min (Int.floor k + 1) ((s.length : ℤ) - 1) := by
      rw [hmin]
      omega
    rw [if_neg hne2, hmin, hceil]

lemma percentileVal_zero (xs : List ℚ) :
    percentileVal xs 0 = (xs.mergeSort (fun a b => decide (a ≤ b))).getD 0 0 := by
  simp only [percentileVal]
  set s := xs.mergeSort (fun a b => decide (a ≤ b)) with hs
  have hk : ((s.length - 1 : ℕ) : ℚ) * ((0 : ℚ) / 100) = 0 := by ring
  rw [hk]
  have hp0 : pyInt 0 = 0 := by
    unfold pyInt
    simp
  rw [hp0]
  by_cases hc : (0 : ℤ) = min (0 + 1) ((s.length : ℤ) - 1)
  · rw [if_pos hc]
    rfl
  · rw [if_neg hc]
    push_cast
    ring

lemma percentileVal_hundred (xs : List ℚ) (hpos : 0 < xs.length) :
    percentileVal xs 100
      = (xs.mergeSort (fun a b => decide (a ≤ b))).getD
          ((xs.mergeSort (fun a b => decide (a ≤ b))).length - 1) 0 := by
  simp only [percentileVal]
  have hlen : (xs.mergeSort (fun a b => decide (a ≤ b))).length = xs.length :=
    (List.mergeSort_perm xs (fun a b : ℚ => decide (a ≤ b))).length_eq
  set s := xs.mergeSort (fun a b => decide (a ≤ b)) with hs
  have hk : ((s.length - 1 : ℕ) : ℚ) * ((100 : ℚ) / 100) = ((s.length - 1 : ℕ) : ℚ) := by
    norm_num
  rw [hk]
  have hpy : pyInt ((s.length - 1 : ℕ) : ℚ) = ((s.length - 1 : ℕ) : ℤ) := by
    unfold pyInt
    rw [if_pos (by positivity)]
    exact Int.floor_natCast _
  rw [hpy]
  have hfz : ((s.length - 1 : ℕ) : ℤ) = (s.length : ℤ) - 1 := by omega
  rw [hfz]
  have hmin : min ((s.length : ℤ) - 1 + 1) ((s.length : ℤ) - 1) = (s.length : ℤ) - 1 :=
    min_eq_right (by omega)
  rw [hmin, if_pos rfl]
  have htn : ((s.length : ℤ) - 1).toNat = s.length - 1 := by omega
  rw [htn]

/-- C5: for a nonempty list and p in [0,100], percentile computes the
order-statistic interpolation of the specification (rank k = (n-1)*p/100,
linear interpolation between the sorted entries at floor(k) and ceil(k));
in particular percentile at p = 0 is the minimum of the list and at
p = 100 its maximum. -/
theorem percentile_order_statistic (xs : List ℚ) (p : ℚ)
    (hne : xs ≠ []) (h0 : 0 ≤ p) (h1 : p ≤ 100) :
    percentile xs p = some (specPercentile xs p) ∧
    (∃ m, percentile xs 0 = some m ∧ m ∈ xs ∧ ∀ y ∈ xs, m ≤ y) ∧
    (∃ m, percentile xs 100 = some m ∧ m ∈ xs ∧ ∀ y ∈ xs, y ≤ m) := by
  have hperm := List.mergeSort_perm xs (fun a b : ℚ => decide (a ≤ b))
  have hsorted := sortedQ_mergeSort xs
  have hpos : 0 < xs.length := List.length_pos.mpr hne
  have hsne : xs.mergeSort (fun a b => decide (a ≤ b)) ≠ [] := by
    intro hcon
    rw [hcon] at hperm
    exact hne (List.Perm.nil_eq hperm).symm
  refine ⟨?_, ?_, ?_⟩
  · unfold percentile
    rw [if_neg hne, percentileVal_eq_spec xs p h0 h1 hpos]
  · rcases sorted_head_min hsorted hsne with ⟨hmem, hmin⟩
    refine ⟨(xs.mergeSort (fun a b => decide (a ≤ b))).getD 0 0, ?_, ?_, ?_⟩
    · unfold percentile
      rw [if_neg hne, percentileVal_zero]
    · exact hperm.mem_iff.mp hmem
    · intro y hy
      exact hmin y (hperm.mem_iff.mpr hy)
  · rcases sorted_last_max hsorted hsne with ⟨hmem, hmax⟩
    refine ⟨(xs.mergeSort (fun a b => decide (a ≤ b))).getD
      ((xs.mergeSort (fun a b => decide (a ≤ b))).length - 1) 0, ?_, ?_, ?_⟩
    · unfold percentile
      rw [if_neg hne, percentileVal_hundred xs hpos]
    · exact hperm.mem_iff.mp hmem
    · intro y hy
      exact hmax y (hperm.mem_iff.mpr hy)

/-- C5 witness: the percentile theorem instantiated at a concrete list and
percentage. -/
theorem percentile_order_statistic_witness :
    ([(3 : ℚ), 1, 2] ≠ []) ∧ ((0 : ℚ) ≤ 50) ∧ ((50 : ℚ) ≤ 100) ∧
    (percentile [(3 : ℚ), 1, 2] 50 = some (specPercentile [(3 : ℚ), 1, 2] 50) ∧
     (∃ m, percentile [(3 : ℚ), 1, 2] 0 = some m ∧ m ∈ [(3 : ℚ), 1, 2] ∧
        ∀ y ∈ [(3 : ℚ), 1, 2], m ≤ y) ∧
     (∃ m, percentile [(3 : ℚ), 1, 2] 100 = some m ∧ m ∈ [(3 : ℚ), 1, 2] ∧
        ∀ y ∈ [(3 : ℚ), 1, 2], y ≤ m)) :=
  ⟨by simp, by norm_num, by norm_num,
    percentile_order_statistic [(3 : ℚ), 1, 2] 50 (by simp) (by norm_num) (by norm_num)⟩

/-! ### C6: empty-sample statistics -/

/-- C6: aggregate statistics over an empty counted set report a defined
undefined value (float NaN, modeled as none) instead of raising:
safe_mean([]) and percentile([], p) are NaN for every p, and summarize of
a log whose counted system-time list is empty still returns a summary,
with NaN mean and percentile figures and a zero counted population. -/
theorem empty_sample_statistics (p : ℚ) (lg : Log) (h : lg.system_time = []) :
    safe_mean [] = none ∧ percentile [] p = none ∧
    (summarize lg).mean_system_time = none ∧
    (summarize lg).p95_system_time = none ∧
    (summarize lg).counted_patients = 0 := by
  refine ⟨rfl, rfl, ?_, ?_, ?_⟩ <;> simp [summarize, safe_mean, percentile, h]

/-- C6 witness: the empty-sample behavior at the freshly initialized log. -/
theorem empty_sample_statistics_witness :
    make_log.system_time = [] ∧
    (safe_mean [] = none ∧ percentile [] 95 = none ∧
     (summarize make_log).mean_system_time = none ∧
     (summarize make_log).p95_system_time = none ∧
     (summarize make_log).counted_patients = 0) :=
  ⟨rfl, empty_sample_statistics 95 make_log rfl⟩

/-! ### C9: bottleneck analysis -/

/-- C9: analyze_bottleneck identifies the bottleneck as a stage of maximum
mean wait among registration, sampling, test machine and verification (the
verification entry is the literal 0, not NaN, whenever its counted list is
empty — in particular when the verification stage is disabled), and
reports severity as the bottleneck's share of the sum of the four stage
values when that sum is positive, and severity 0 when the sum is 0. -/
theorem bottleneck_analysis (summary : Summary) (lg : Log) (r1 r2 r3 : ℚ)
    (h1 : summary.mean_wait_reg = some r1)
    (h2 : summary.mean_wait_sample = some r2)
    (h3 : summary.mean_wait_machine = some r3) :
    ∃ r4 rb,
      (analyze_bottleneck summary lg).all_stages BStage.verifikasi = some r4 ∧
      (lg.wait_verify = [] → r4 = 0) ∧
      (analyze_bottleneck summary lg).wait_time = some rb ∧
      (analyze_bottleneck summary lg).all_stages (analyze_bottleneck summary lg).bottleneck
        = some rb ∧
      (∀ s, ∃ rs, (analyze_bottleneck summary lg).all_stages s = some rs ∧ rs ≤ rb) ∧
      (0 < r1 + r2 + r3 + r4 →
        (analyze_bottleneck summary lg).severity = rb / (r1 + r2 + r3 + r4) * 100) ∧
      (r1 + r2 + r3 + r4 = 0 → (analyze_bottleneck summary lg).severity = 0) := by
  have h4 : ∃ r4, (if lg.wait_verify = [] then some (0 : ℚ) else safe_mean lg.wait_verify)
      = some r4 ∧ (lg.wait_verify = [] → r4 = 0) := by
    by_cases hv : lg.wait_verify = []
    · exact ⟨0, by rw [if_pos hv], fun _ => rfl⟩
    · refine ⟨lg.wait_verify.sum / (lg.wait_verify.length : ℚ), ?_, fun hc => absurd hc hv⟩
      rw [if_neg hv]
      simp [safe_mean, hv]
  rcases h4 with ⟨r4, h4, h40⟩
  refine ⟨r4, ?_⟩
  simp only [analyze_bottleneck, h1, h2, h3, h4, List.foldl, pyGt, pyAdd,
    decide_eq_true_eq]
  by_cases g1 : r1 < r2
  · simp only [g1, if_true, decide_eq_true_eq]
    by_cases g2 : r2 < r3
    · simp only [g2, if_true, decide_eq_true_eq]
      by_cases g3 : r3 < r4
      · simp only [g3, if_true, decide_eq_true_eq]
        refine ⟨r4, trivial, h40, rfl, rfl, ?_, ?_, ?_⟩
        · intro s
          cases s
          · exact ⟨r1, rfl, by linarith⟩
          · exact ⟨r2, rfl, by linarith⟩
          · exact ⟨r3, rfl, by linarith⟩
          · exact ⟨r4, rfl, le_refl r4⟩
        · intro hS
          rw [if_pos hS]
        · intro hS
          rw [if_neg (by linarith)]
      · simp only [g3, if_false, decide_eq_true_eq]
        refine ⟨r3, trivial, h40, rfl, rfl, ?_, ?_, ?_⟩
        · intro s
          cases s
          · exact ⟨r1, rfl, by linarith⟩
          · exact ⟨r2, rfl, by linarith⟩
          · exact ⟨r3, rfl, le_refl r3⟩
          · exact ⟨r4, rfl, by linarith⟩
        · intro hS
          rw [if_pos hS]
        · intro hS
          rw [if_neg (by linarith)]
    · simp only [g2, if_false, decide_eq_true_eq]
      by_cases g3 : r2 < r4
      · simp only [g3, if_true, decide_eq_true_eq]
        refine ⟨r4, trivial, h40, rfl, rfl, ?_, ?_, ?_⟩
        · intro s
          cases s
          · exact ⟨r1, rfl, by linarith⟩
          · exact ⟨r2, rfl, by linarith⟩
          · exact ⟨r3, rfl, by linarith⟩
          · exact ⟨r4, rfl, le_refl r4⟩
        · intro hS
          rw [if_pos hS]
        · intro hS
          rw [if_neg (by linarith)]
      · simp only [g3, if_false, decide_eq_true_eq]
        refine ⟨r2, trivial, h40, rfl, rfl, ?_, ?_, ?_⟩
        · intro s
          cases s
          · exact ⟨r1, rfl, by linarith⟩
          · exact ⟨r2, rfl, le_refl r2⟩
          · exact ⟨r3, rfl, by linarith⟩
          · exact ⟨r4, rfl, by linarith⟩
        · intro hS
          rw [if_pos hS]
        · intro hS
          rw [if_neg (by linarith)]
  · simp only [g1, if_false, decide_eq_true_eq]
    by_cases g2 : r1 < r3
    · simp only [g2, if_true, decide_eq_true_eq]
      by_cases g3 : r3 < r4
      · simp only [g3, if_true, decide_eq_true_eq]
        refine ⟨r4, trivial, h40, rfl, rfl, ?_, ?_, ?_⟩
        · intro s
          cases s
          · exact ⟨r1, rfl, by linarith⟩
          · exact ⟨r2, rfl, by linarith⟩
          · exact ⟨r3, rfl, by linarith⟩
          · exact ⟨r4, rfl, le_refl r4⟩
        · intro hS
          rw [if_pos hS]
        · intro hS
          rw [if_neg (by linarith)]
      · simp only [g3, if_false, decide_eq_true_eq]
        refine ⟨r3, trivial, h40, rfl, rfl, ?_, ?_, ?_⟩
        · intro s
          cases s
          · exact ⟨r1, rfl, by linarith⟩
          · exact ⟨r2, rfl, by linarith⟩
          · exact ⟨r3, rfl, le_refl r3⟩
          · exact ⟨r4, rfl, by linarith⟩
        · intro hS
          rw [if_pos hS]
        · intro hS
          rw [if_neg (by linarith)]
    · simp only [g2, if_false, decide_eq_true_eq]
      by_cases g3 : r1 < r4
      · simp only [g3, if_true, decide_eq_true_eq]
        refine ⟨r4, trivial, h40, rfl, rfl, ?_, ?_, ?_⟩
        · intro s
          cases s
          · exact ⟨r1, rfl, by linarith⟩
          · exact ⟨r2, rfl, by linarith⟩
          · exact ⟨r3, rfl, by linarith⟩
          · exact ⟨r4, rfl, le_refl r4⟩
        · intro hS
          rw [if_pos hS]
        · intro hS
          rw [if_neg (by linarith)]
      · simp only [g3, if_false, decide_eq_true_eq]
        refine ⟨r1, trivial, h40, rfl, rfl, ?_, ?_, ?_⟩
        · intro s
          cases s
          · exact ⟨r1, rfl, le_refl r1⟩
          · exact ⟨r2, rfl, by linarith⟩
          · exact ⟨r3, rfl, by linarith⟩
          · exact ⟨r4, rfl, by linarith⟩
        · intro hS
          rw [if_pos hS]
        · intro hS
          rw [if_neg (by linarith)]

/-- C9 witness: the bottleneck analysis instantiated at a concrete summary
whose sampling stage dominates, with the verification list empty. -/
theorem bottleneck_analysis_witness :
    ∃ r4 rb,
      (analyze_bottleneck
        { total_patients := 4, counted_patients := 4, mean_wait_reg := some 3,
          mean_wait_sample := some 7, mean_wait_machine := some 2,
          mean_system_time := some 20, p95_system_time := some 25,
          counts := { priority := 1, normal := 3, fast := 3, slow := 1 } }
        make_log).all_stages BStage.verifikasi = some r4 ∧
      (make_log.wait_verify = [] → r4 = 0) ∧
      (analyze_bottleneck
        { total_patients := 4, counted_patients := 4, mean_wait_reg := some 3,
          mean_wait_sample := some 7, mean_wait_machine := some 2,
          mean_system_time := some 20, p95_system_time := some 25,
          counts := { priority := 1, normal := 3, fast := 3, slow := 1 } }
        make_log).wait_time = some rb ∧
      (analyze_bottleneck
        { total_patients := 4, counted_patients := 4, mean_wait_reg := some 3,
          mean_wait_sample := some 7, mean_wait_machine := some 2,
          mean_system_time := some 20, p95_system_time := some 25,
          counts := { priority := 1, normal := 3, fast := 3, slow := 1 } }
        make_log).all_stages
        (analyze_bottleneck
          { total_patients := 4, counted_patients := 4, mean_wait_reg := some 3,
            mean_wait_sample := some 7, mean_wait_machine := some 2,
            mean_system_time := some 20, p95_system_time := some 25,
            counts := { priority := 1, normal := 3, fast := 3, slow := 1 } }
          make_log).bottleneck = some rb ∧
      (∀ s, ∃ rs, (analyze_bottleneck
        { total_patients := 4, counted_patients := 4, mean_wait_reg := some 3,
          mean_wait_sample := some 7, mean_wait_machine := some 2,
          mean_system_time := some 20, p95_system_time := some 25,
          counts := { priority := 1, normal := 3, fast := 3, slow := 1 } }
        make_log).all_stages s = some rs ∧ rs ≤ rb) ∧
      (0 < 3 + 7 + 2 + r4 →
        (analyze_bottleneck
          { total_patients := 4, counted_patients := 4, mean_wait_reg := some 3,
            mean_wait_sample := some 7, mean_wait_machine := some 2,
            mean_system_time := some 20, p95_system_time := some 25,
            counts := { priority := 1, normal := 3, fast := 3, slow := 1 } }
          make_log).severity = rb / (3 + 7 + 2 + r4) * 100) ∧
      (3 + 7 + 2 + r4 = 0 →
        (analyze_bottleneck
          { total_patients := 4, counted_patients := 4, mean_wait_reg := some 3,
            mean_wait_sample := some 7, mean_wait_machine := some 2,
            mean_system_time := some 20, p95_system_time := some 25,
            counts := { priority := 1, normal := 3, fast := 3, slow := 1 } }
          make_log).severity = 0) :=
  bottleneck_analysis
    { total_patients := 4, counted_patients := 4, mean_wait_reg := some 3,
      mean_wait_sample := some 7, mean_wait_machine := some 2,
      mean_system_time := some 20, p95_system_time := some 25,
      counts := { priority := 1, normal := 3, fast := 3, slow := 1 } }
    make_log 3 7 2 rfl rfl rfl

/-! ### C3: admission order on a priority pool

The pool machinery (insertReq / triggerPut / request / release) is exactly
the one driving the simulation; here its admission order is studied over an
arbitrary interleaving of request and release operations. -/

/-- One external operation on a priority pool. -/
inductive ROp
  | request (prio : ℤ) (pat : PatientState)
  | release (pid : ℕ)

def rstep (res : Resource) : ROp → Resource × List Request
  | ROp.request prio pat => Resource.request res prio pat
  | ROp.release pid => Resource.release res pid

/-- Run a sequence of operations, concatenating the grant batches in the
order they are emitted. -/
def rtrace (res : Resource) : List ROp → Resource × List Request
  | [] => (res, [])
  | op :: ops =>
    ((rtrace (rstep res op).1 ops).1, (rstep res op).2 ++ (rtrace (rstep res op).1 ops).2)

/-- The waiting queue is strictly sorted by (priority, seq). -/
def SortedQ (l : List Request) : Prop := l.Pairwise (fun a b => keyLtB a b = true)

/-- Every queued sequence number is below the pool's next one. -/
def SeqBound (res : Resource) : Prop := ∀ r ∈ res.queue, r.seq < res.nextSeq

/-- A is granted no later than B in the grant sequence G: every prefix of G
holding B already holds A. -/
def GrantedNoLater (A B : Request) (G : List Request) : Prop :=
  ∀ g1 g2, G = g1 ++ g2 → B ∈ g1 → A ∈ g1

lemma grantedNoLater_append_left {A B : Request} {x y : List Request}
    (hx : GrantedNoLater A B x) (hBy : B ∉ y) : GrantedNoLater A B (x ++ y) := by
  intro g1 g2 hsplit hB
  rcases List.append_eq_append_iff.mp hsplit with ⟨a, ha1, ha2⟩ | ⟨c, hc1, hc2⟩
  · subst ha1
    rcases List.mem_append.mp hB with hBx | hBa
    · exact List.mem_append.mpr (Or.inl (hx x [] (by simp) hBx))
    · exact absurd (ha2 ▸ List.mem_append.mpr (Or.inl hBa)) hBy
  · subst hc1
    exact hx g1 c rfl hB

lemma grantedNoLater_granted {A B : Request} {x : List Request} (y : List Request)
    (hA : A ∈ x) (hB : B ∉ x) : GrantedNoLater A B (x ++ y) := by
  intro g1 g2 hsplit hBg
  rcases List.append_eq_append_iff.mp hsplit with ⟨a, ha1, _⟩ | ⟨c, hc1, _⟩
  · subst ha1
    exact List.mem_append.mpr (Or.inl hA)
  · subst hc1
    exact absurd (List.mem_append.mpr (Or.inl hBg)) hB

lemma grantedNoLater_append_right {A B : Request} {x y : List Request}
    (hB : B ∉ x) (hy : GrantedNoLater A B y) : GrantedNoLater A B (x ++ y) := by
  intro g1 g2 hsplit hBg
  rcases List.append_eq_append_iff.mp hsplit with ⟨a, ha1, ha2⟩ | ⟨c, hc1, hc2⟩
  · subst ha1
    rcases List.mem_append.mp hBg with h1 | h2
    · exact absurd h1 hB
    · exact List.mem_append.mpr (Or.inr (hy a g2 ha2 h2))
  · subst hc1
    exact absurd (List.mem_append.mpr (Or.inl hBg)) hB

lemma sorted_grantedNoLater {A B : Request} {l : List Request}
    (hs : SortedQ l) (hA : A ∈ l) (hlt : keyLtB A B = true) : GrantedNoLater A B l := by
  intro g1 g2 hsplit hB
  subst hsplit
  by_contra hA1
  have hAg2 : A ∈ g2 := by
    rcases List.mem_append.mp hA with h | h
    · exact absurd h hA1
    · exact h
  have hp := (List.pairwise_append.mp hs).2.2 B hB A hAg2
  simp [keyLtB_asymm hlt] at hp

lemma grantedNoLater_take {A B : Request} {l : List Request}
    (h : GrantedNoLater A B l) (k : ℕ) : GrantedNoLater A B (l.take k) := by
  intro g1 g2 hsplit hB
  exact h g1 (g2 ++ l.drop k)
    (by rw [← List.append_assoc, ← hsplit, List.take_append_drop]) hB

lemma sortedQ_nodup {l : List Request} (hs : SortedQ l) : l.Nodup := by
  refine List.Pairwise.imp ?_ hs
  intro a b h heq
  rw [heq, keyLtB_irrefl] at h
  exact Bool.noConfusion h

lemma not_mem_take_of_mem_drop {B : Request} {l : List Request} {k : ℕ}
    (hnd : l.Nodup) (h : B ∈ l.drop k) : B ∉ l.take k := by
  have h2 : (l.take k ++ l.drop k).Nodup := by rw [List.take_append_drop]; exact hnd
  have h3 := List.nodup_append.mp h2
  intro hmem
  exact h3.2.2 hmem h

/-- One step, characterized by a working queue Q: the grant batch is an
initial segment of Q, the surviving queue is the matching final segment,
sortedness and the sequence bound carry over, and the next sequence number
does not decrease. -/
lemma rstep_spec (res : Resource) (op : ROp) (hs : SortedQ res.queue) (hsb : SeqBound res) :
    ∃ Q k, (rstep res op).2 = Q.take k ∧ (rstep res op).1.queue = Q.drop k ∧
      res.nextSeq ≤ (rstep res op).1.nextSeq ∧ SortedQ Q ∧
      (∀ x ∈ Q, x.seq < (rstep res op).1.nextSeq) ∧
      (∀ x ∈ res.queue, x ∈ Q) ∧
      (∀ x ∈ Q, x ∈ res.queue ∨ x.seq = res.nextSeq) := by
  cases op with
  | request prio pat =>
    obtain ⟨k, hq, hg, _, hn, _⟩ := triggerPut_spec { res with
      queue := insertReq { priority := prio, seq := res.nextSeq, pat := pat } res.queue,
      nextSeq := res.nextSeq + 1 }
    have hn' : (rstep res (ROp.request prio pat)).1.nextSeq = res.nextSeq + 1 := hn
    refine ⟨insertReq { priority := prio, seq := res.nextSeq, pat := pat } res.queue, k,
      hg, hq, ?_, ?_, ?_, ?_, ?_⟩
    · rw [hn']; exact Nat.le_succ _
    · refine insertReq_pairwise hs ?_
      intro a ha
      have hne : a.seq ≠ res.nextSeq := Nat.ne_of_lt (hsb a ha)
      rcases @keyLtB_total { priority := prio, seq := res.nextSeq, pat := pat } a
        (fun h => hne h.symm) with h | h
      · exact Or.inl h
      · exact Or.inr h
    · intro x hx
      rw [hn']
      rcases mem_insertReq.mp hx with rfl | hx2
      · exact Nat.lt_succ_self _
      · exact Nat.lt_succ_of_lt (hsb x hx2)
    · intro x hx
      exact mem_insertReq.mpr (Or.inr hx)
    · intro x hx
      rcases mem_insertReq.mp hx with rfl | hx2
      · exact Or.inr rfl
      · exact Or.inl hx2
  | release pid =>
    obtain ⟨k, hq, hg, _, hn, _⟩ := triggerPut_spec { res with users := res.users.erase pid }
    have hn' : (rstep res (ROp.release pid)).1.nextSeq = res.nextSeq := hn
    refine ⟨res.queue, k, hg, hq, ?_, hs, ?_, fun x hx => hx, fun x hx => Or.inl hx⟩
    · rw [hn']
    · intro x hx
      rw [hn']
      exact hsb x hx

/-- A request that has left the queue, with a stale sequence number, never
appears in any later grant batch. -/
lemma rtrace_not_mem {B : Request} : ∀ (ops : List ROp) (res : Resource),
    SortedQ res.queue → SeqBound res → B ∉ res.queue → B.seq < res.nextSeq →
    B ∉ (rtrace res ops).2 := by
  intro ops
  induction ops with
  | nil =>
    intro res _ _ _ _
    simp [rtrace]
  | cons op ops ih =>
    intro res hs hsb hBq hBs
    obtain ⟨Q, k, hg, hq, hn, hQs, hQb, hsub, hmemQ⟩ := rstep_spec res op hs hsb
    have hBQ : B ∉ Q := by
      intro hB
      rcases hmemQ B hB with h | h
      · exact hBq h
      · exact absurd h (Nat.ne_of_lt hBs)
    have hG : (rtrace res (op :: ops)).2 = (rstep res op).2 ++ (rtrace (rstep res op).1 ops).2 :=
      rfl
    rw [hG]
    intro hmem
    rcases List.mem_append.mp hmem with h1 | h2
    · exact hBQ ((List.take_sublist k Q).subset (hg ▸ h1))
    · refine ih (rstep res op).1 ?_ ?_ ?_ ?_ h2
      · rw [hq]; exact List.Pairwise.sublist (List.drop_sublist k Q) hQs
      · intro x hx
        exact hQb x ((List.drop_sublist k Q).subset (hq ▸ hx))
      · intro hB
        exact hBQ ((List.drop_sublist k Q).subset (hq ▸ hB))
      · exact Nat.lt_of_lt_of_le hBs hn

/-- The induction core for C3: along any operation sequence, a queued
request that strictly precedes another in the (priority, seq) order is
granted no later. -/
lemma rtrace_grantedNoLater {A B : Request} : ∀ (ops : List ROp) (res : Resource),
    SortedQ res.queue → SeqBound res →
    A ∈ res.queue → B ∈ res.queue → keyLtB A B = true →
    GrantedNoLater A B (rtrace res ops).2 := by
  intro ops
  induction ops with
  | nil =>
    intro res _ _ _ _ _
    intro g1 g2 hsplit hB
    have h1 : g1 = [] := (List.append_eq_nil.mp ((by simpa [rtrace] using hsplit.symm))).1
    subst h1
    simp at hB
  | cons op ops ih =>
    intro res hs hsb hA hB hlt
    obtain ⟨Q, k, hg, hq, hn, hQs, hQb, hsub, hmemQ⟩ := rstep_spec res op hs hsb
    have hAQ : A ∈ Q := hsub A hA
    have hBQ : B ∈ Q := hsub B hB
    have hnd : Q.Nodup := sortedQ_nodup hQs
    have hG : (rtrace res (op :: ops)).2 = (rstep res op).2 ++ (rtrace (rstep res op).1 ops).2 :=
      rfl
    rw [hG, hg]
    have hs1 : SortedQ (rstep res op).1.queue := by
      rw [hq]; exact List.Pairwise.sublist (List.drop_sublist k Q) hQs
    have hsb1 : SeqBound (rstep res op).1 := by
      intro x hx
      exact hQb x ((List.drop_sublist k Q).subset (hq ▸ hx))
    rcases List.mem_append.mp (by rw [List.take_append_drop] at *; exact hBQ :
        B ∈ Q.take k ++ Q.drop k) with hBtake | hBdrop
    · -- B granted in this batch: A is granted in it no later, and B is gone for good
      refine grantedNoLater_append_left
        (grantedNoLater_take (sorted_grantedNoLater hQs hAQ hlt) k) ?_
      refine rtrace_not_mem ops (rstep res op).1 hs1 hsb1 ?_ ?_
      · intro hBq1
        exact not_mem_take_of_mem_drop hnd (hq ▸ hBq1) hBtake
      · exact Nat.lt_of_lt_of_le (hsb B hB) hn
    · -- B still queued after the step
      have hBnot : B ∉ Q.take k := not_mem_take_of_mem_drop hnd hBdrop
      rcases List.mem_append.mp (by rw [List.take_append_drop] at *; exact hAQ :
          A ∈ Q.take k ++ Q.drop k) with hAtake | hAdrop
      · exact grantedNoLater_granted _ hAtake hBnot
      · refine grantedNoLater_append_right hBnot ?_
        exact ih (rstep res op).1 hs1 hsb1 (hq ▸ hAdrop) (hq ▸ hBdrop) hlt

/-- C3: on a priority pool with a well-formed (sorted, fresh-sequence)
waiting queue, a pending request of a strictly higher priority class is
granted no later than a lower-class one under any further sequence of
request and release operations, regardless of submission order; among two
same-class pending requests the one with the smaller sequence number
(earlier submission) is granted no later (strict FIFO); and a new request
never preempts in-progress services: the user set after a request extends
the previous one. -/
theorem priority_admission_order (res : Resource) (A B : Request) (ops : List ROp)
    (hs : SortedQ res.queue) (hsb : SeqBound res)
    (hA : A ∈ res.queue) (hB : B ∈ res.queue) :
    (A.priority < B.priority → GrantedNoLater A B (rtrace res ops).2) ∧
    (A.priority = B.priority → A.seq < B.seq → GrantedNoLater A B (rtrace res ops).2) ∧
    (∀ prio pat, ∃ l, (Resource.request res prio pat).1.users = res.users ++ l) := by
  refine ⟨?_, ?_, ?_⟩
  · intro h
    exact rtrace_grantedNoLater ops res hs hsb hA hB (keyLtB_iff.mpr (Or.inl h))
  · intro h1 h2
    exact rtrace_grantedNoLater ops res hs hsb hA hB (keyLtB_iff.mpr (Or.inr ⟨h1, h2⟩))
  · intro prio pat
    obtain ⟨k, _, _, _, _, l, hl⟩ := triggerPut_spec { res with
      queue := insertReq { priority := prio, seq := res.nextSeq, pat := pat } res.queue,
      nextSeq := res.nextSeq + 1 }
    exact ⟨l, by simpa using hl⟩

/-- A concrete suspended patient for the C3 witness pool. -/
def wPat (n : ℕ) : PatientState :=
  { pid := n, priority := 1, test_type := TestType.fast, arrival := 0,
    wait_reg := 0, wait_sample := 0, wait_machine := 0, wait_verify := 0,
    stage := Stage.reg, qstart := 0, pendingService := 0, servicesSum := 0 }

/-- The C3 witness pool: capacity 1, one user in service, a priority
request (submitted later, seq 3) queued ahead of a normal one (seq 2). -/
def wRes : Resource :=
  { capacity := 1, users := [5],
    nextSeq := 4,
    queue := [{ priority := 0, seq := 3, pat := wPat 7 },
              { priority := 1, seq := 2, pat := wPat 8 }] }

/-- C3 witness: the admission-order theorem instantiated on the concrete
pool under two releases. -/
theorem priority_admission_order_witness :
    (SortedQ wRes.queue ∧ SeqBound wRes ∧
      ({ priority := 0, seq := 3, pat := wPat 7 } : Request) ∈ wRes.queue ∧
      ({ priority := 1, seq := 2, pat := wPat 8 } : Request) ∈ wRes.queue) ∧
    (((0 : ℤ) < 1 →
        GrantedNoLater { priority := 0, seq := 3, pat := wPat 7 }
          { priority := 1, seq := 2, pat := wPat 8 }
          (rtrace wRes [ROp.release 5, ROp.release 7]).2) ∧
      ((0 : ℤ) = 1 → 3 < 2 →
        GrantedNoLater { priority := 0, seq := 3, pat := wPat 7 }
          { priority := 1, seq := 2, pat := wPat 8 }
          (rtrace wRes [ROp.release 5, ROp.release 7]).2) ∧
      (∀ prio pat, ∃ l, (Resource.request wRes prio pat).1.users = wRes.users ++ l)) :=
  ⟨⟨by show wRes.queue.Pairwise (fun a b => keyLtB a b = true); decide,
    by show ∀ r ∈ wRes.queue, r.seq < wRes.nextSeq; decide, by decide, by decide⟩,
    priority_admission_order wRes { priority := 0, seq := 3, pat := wPat 7 }
      { priority := 1, seq := 2, pat := wPat 8 } [ROp.release 5, ROp.release 7]
      (by show wRes.queue.Pairwise (fun a b => keyLtB a b = true); decide)
      (by show ∀ r ∈ wRes.queue, r.seq < wRes.nextSeq; decide)
      (by decide) (by decide)⟩

/-! ### C7: configuration validation -/

/-- A configuration whose priority probability is 2, outside [0,1], with
every other field valid. -/
def cBad : Params :=
  { wParams with p_priority := 2 }

def cBadLog : Log :=
  match run_simulation cBad 123 40 (randomSeed 7) with
  | Except.ok lg => lg
  | Except.error _ => make_log

/-! ### C8: utilization formula and bounds -/

/-- A runnable configuration whose registration modal time is negative
(malformed triangular bounds are never validated): low -2, mode -1,
high 6. -/
def cUtil : Params :=
  { wParams with
    service_time := { wService with registration := { lo := -2, mode := -1, hi := 6 } },
    sim_time := 40, warm_up := 0, use_verify := false }

def uLog : Log :=
  match run_simulation cUtil 12 150 (randomSeed 7) with
  | Except.ok lg => lg
  | Except.error _ => make_log

def uUtil : Utilization :=
  match calculate_utilization uLog cUtil with
  | Except.ok (some u) => u
  | _ => { registrasi := 0, sampel := 0, mesin_fast := 0, mesin_slow := 0, verifikasi := 0 }

/-- The utilization record actually computed by calculate_utilization on
its happy path: registration and sampling (and verification, when enabled)
are scaled by the number of completed records, while the two machine pools
are scaled by the spawned fast / slow composition counters; each entry is
capped above at 100 but not below. -/
def utilFormula (lg : Log) (params : Params) : Utilization :=
  { registrasi := min ((lg.patients.length : ℚ) * params.service_time.registration.mode
      / ((params.c_reg : ℚ) * params.sim_time) * 100) 100,
    sampel := min ((lg.patients.length : ℚ) * params.service_time.sampling.mode
      / ((params.c_phleb : ℚ) * params.sim_time) * 100) 100,
    mesin_fast := min ((lg.counts.fast : ℚ) * params.service_time.test_fast.mode
      / ((params.c_fast : ℚ) * params.sim_time) * 100) 100,
    mesin_slow := min ((lg.counts.slow : ℚ) * params.service_time.test_slow.mode
      / ((params.c_slow : ℚ) * params.sim_time) * 100) 100,
    verifikasi := min (if params.use_verify
      then (lg.patients.length : ℚ) * params.service_time.verification.mode
        / ((params.c_verify : ℚ) * params.sim_time) * 100
      else 0) 100 }

/-- A one-record log used to instantiate the amended utilization theorem. -/
def uGood : Log :=
  { make_log with
    patients := [wRecordDefault],
    counts := { priority := 1, normal := 0, fast := 1, slow := 0 } }

/-- C7 amended: only a non-positive pool capacity, or a non-positive
horizon, is rejected with an error before the run starts (SimPy's resource
constructor and env.run); a zero mean inter-arrival raises
ZeroDivisionError only once the run is underway, when the first
inter-arrival is sampled; out-of-range probabilities and malformed
triangular bounds are not validated at all (see the counterexample). -/
theorem config_validation_amended (params : Params) (seed fuel : ℕ) (g : RNG)
    (h : params.c_reg ≤ 0 ∨ params.c_phleb ≤ 0 ∨ params.c_fast ≤ 0 ∨ params.c_slow ≤ 0
      ∨ params.sim_time ≤ 0) :
    run_simulation params seed fuel g = Except.error Err.valueError := by
  by_cases hc : params.c_reg ≤ 0 ∨ params.c_phleb ≤ 0 ∨ params.c_fast ≤ 0 ∨ params.c_slow ≤ 0
  · simp only [run_simulation, runFull, if_pos hc]
    rfl
  · have hsim : params.sim_time ≤ 0 := by tauto
    simp only [run_simulation, runFull, if_neg hc, if_pos hsim]
    rfl

/-- C8 amended: on its happy path (some completed record, nonzero
denominators) calculate_utilization returns exactly utilFormula — completed
records scale the registration / sampling / verification figures, the
spawned fast / slow counters scale the machine figures, capped above at
100 — and when additionally every modal service time is nonnegative and
every denominator positive, every reported value lies in [0,100]. -/
theorem utilization_formula_amended (lg : Log) (params : Params)
    (hne : lg.patients ≠ [])
    (hreg : 0 < (params.c_reg : ℚ) * params.sim_time)
    (hphleb : 0 < (params.c_phleb : ℚ) * params.sim_time)
    (hfast : 0 < (params.c_fast : ℚ) * params.sim_time)
    (hslow : 0 < (params.c_slow : ℚ) * params.sim_time)
    (hverify : 0 < (params.c_verify : ℚ) * params.sim_time)
    (m1 : 0 ≤ params.service_time.registration.mode)
    (m2 : 0 ≤ params.service_time.sampling.mode)
    (m3 : 0 ≤ params.service_time.test_fast.mode)
    (m4 : 0 ≤ params.service_time.test_slow.mode)
    (m5 : 0 ≤ params.service_time.verification.mode) :
    calculate_utilization lg params = Except.ok (some (utilFormula lg params)) ∧
    (0 ≤ (utilFormula lg params).registrasi ∧ (utilFormula lg params).registrasi ≤ 100) ∧
    (0 ≤ (utilFormula lg params).sampel ∧ (utilFormula lg params).sampel ≤ 100) ∧
    (0 ≤ (utilFormula lg params).mesin_fast ∧ (utilFormula lg params).mesin_fast ≤ 100) ∧
    (0 ≤ (utilFormula lg params).mesin_slow ∧ (utilFormula lg params).mesin_slow ≤ 100) ∧
    (0 ≤ (utilFormula lg params).verifikasi ∧ (utilFormula lg params).verifikasi ≤ 100) := by
  refine ⟨?_, ⟨?_, ?_⟩, ⟨?_, ?_⟩, ⟨?_, ?_⟩, ⟨?_, ?_⟩, ⟨?_, ?_⟩⟩
  · by_cases hv : params.use_verify = true
    · simp [calculate_utilization, utilFormula, hne, hv, ne_of_gt hreg, ne_of_gt hphleb,
        ne_of_gt hfast, ne_of_gt hslow, ne_of_gt hverify]
    · simp [calculate_utilization, utilFormula, hne, hv, ne_of_gt hreg, ne_of_gt hphleb,
        ne_of_gt hfast, ne_of_gt hslow]
  · simp only [utilFormula]
    exact le_min (mul_nonneg (div_nonneg (mul_nonneg (Nat.cast_nonneg _) m1)
      (le_of_lt hreg)) (by norm_num)) (by norm_num)
  · simp only [utilFormula]
    exact min_le_right _ _
  · simp only [utilFormula]
    exact le_min (mul_nonneg (div_nonneg (mul_nonneg (Nat.cast_nonneg _) m2)
      (le_of_lt hphleb)) (by norm_num)) (by norm_num)
  · simp only [utilFormula]
    exact min_le_right _ _
  · simp only [utilFormula]
    exact le_min (mul_nonneg (div_nonneg (mul_nonneg (Nat.cast_nonneg _) m3)
      (le_of_lt hfast)) (by norm_num)) (by norm_num)
  · simp only [utilFormula]
    exact min_le_right _ _
  · simp only [utilFormula]
    exact le_min (mul_nonneg (div_nonneg (mul_nonneg (Nat.cast_nonneg _) m4)
      (le_of_lt hslow)) (by norm_num)) (by norm_num)
  · simp only [utilFormula]
    exact min_le_right _ _
  · simp only [utilFormula]
    refine le_min ?_ (by norm_num)
    by_cases hv : params.use_verify = true
    · rw [if_pos hv]
      exact mul_nonneg (div_nonneg (mul_nonneg (Nat.cast_nonneg _) m5)
        (le_of_lt hverify)) (by norm_num)
    · rw [if_neg hv]
  · simp only [utilFormula]
    exact min_le_right _ _

section ConfigEval

attribute [local semireducible] Rat.add Rat.sub Rat.mul Rat.inv Nat.gcd

/-- C7 counterexample: a probability outside [0,1] is not rejected —
run_simulation runs to completion and spawns patients under
p_priority = 2 (every random() < 2 test simply succeeds), refuting the
claimed pre-run validation of probabilities. -/
theorem config_validation_counterexample :
    1 < cBad.p_priority ∧
    run_simulation cBad 123 40 (randomSeed 7) = Except.ok cBadLog ∧
    0 < cBadLog.counts.priority + cBadLog.counts.normal :=
  ⟨by decide, rfl, by decide⟩

/-- C7 amended witness: the pre-run rejection instantiated at a
zero-capacity configuration, and the in-run ZeroDivisionError of a zero
mean inter-arrival (which passes the pre-run checks). -/
theorem config_validation_amended_witness :
    (({ wParams with c_reg := 0 } : Params).c_reg ≤ 0 ∨
      ({ wParams with c_reg := 0 } : Params).c_phleb ≤ 0 ∨
      ({ wParams with c_reg := 0 } : Params).c_fast ≤ 0 ∨
      ({ wParams with c_reg := 0 } : Params).c_slow ≤ 0 ∨
      ({ wParams with c_reg := 0 } : Params).sim_time ≤ 0) ∧
    run_simulation { wParams with c_reg := 0 } 1 5 (randomSeed 0)
      = Except.error Err.valueError ∧
    run_simulation { wParams with mean_interarrival := 0 } 123 40 (randomSeed 7)
      = Except.error Err.zeroDivision :=
  ⟨Or.inl (by decide),
    config_validation_amended { wParams with c_reg := 0 } 1 5 (randomSeed 0) (Or.inl (by decide)),
    rfl⟩

/-- C8 counterexample: with a negative (never validated) registration modal
time, the utilization report of an actual completed run assigns the
registration pool the negative figure -5/2, violating the claimed [0,100]
bound. -/
theorem utilization_bounds_counterexample :
    run_simulation cUtil 12 150 (randomSeed 7) = Except.ok uLog ∧
    uLog.patients ≠ [] ∧
    calculate_utilization uLog cUtil = Except.ok (some uUtil) ∧
    uUtil.registrasi < 0 :=
  ⟨rfl, by decide, rfl, by decide⟩

/-- C8 amended witness: the formula and the [0,100] bounds instantiated at
a one-record log and the default configuration. -/
theorem utilization_formula_amended_witness :
    (uGood.patients ≠ [] ∧ 0 < (wParams.c_reg : ℚ) * wParams.sim_time ∧
      0 < (wParams.c_phleb : ℚ) * wParams.sim_time ∧
      0 < (wParams.c_fast : ℚ) * wParams.sim_time ∧
      0 < (wParams.c_slow : ℚ) * wParams.sim_time ∧
      0 < (wParams.c_verify : ℚ) * wParams.sim_time ∧
      0 ≤ wParams.service_time.registration.mode ∧
      0 ≤ wParams.service_time.sampling.mode ∧
      0 ≤ wParams.service_time.test_fast.mode ∧
      0 ≤ wParams.service_time.test_slow.mode ∧
      0 ≤ wParams.service_time.verification.mode) ∧
    (calculate_utilization uGood wParams = Except.ok (some (utilFormula uGood wParams)) ∧
      (0 ≤ (utilFormula uGood wParams).registrasi ∧ (utilFormula uGood wParams).registrasi ≤ 100) ∧
      (0 ≤ (utilFormula uGood wParams).sampel ∧ (utilFormula uGood wParams).sampel ≤ 100) ∧
      (0 ≤ (utilFormula uGood wParams).mesin_fast ∧ (utilFormula uGood wParams).mesin_fast ≤ 100) ∧
      (0 ≤ (utilFormula uGood wParams).mesin_slow ∧ (utilFormula uGood wParams).mesin_slow ≤ 100) ∧
      (0 ≤ (utilFormula uGood wParams).verifikasi ∧ (utilFormula uGood wParams).verifikasi ≤ 100)) :=
  ⟨⟨by decide, by decide, by decide, by decide, by decide, by decide,
    by decide, by decide, by decide, by decide, by decide⟩,
    utilization_formula_amended uGood wParams (by decide) (by decide) (by decide)
      (by decide) (by decide) (by decide) (by decide) (by decide) (by decide)
      (by decide) (by decide)⟩

end ConfigEval

end LabSim
